import Mathlib

/-!
Verification of the IB simulator's wire protocol and session engine.

The development shallowly embeds the Python sources:
  * `ib_simulator/protocol/encoder.py`  (`MessageEncoder`)
  * `ib_simulator/protocol/decoder.py`  (`MessageDecoder`)
  * `ib_simulator/core/client_handler.py` (`ClientHandler`)
  * `ib_simulator/core/server.py` (`IBSimulatorServer`)

Bytes are modelled as natural numbers below 256, byte streams as `List Nat`,
and wall-clock times as rationals.  Python strings carried on the wire use the
`latin-1` codec, under which every byte round-trips with the character of the
same code point; the embedding therefore moves between `String` and `List Nat`
with `Char.toNat` / `Char.ofNat` and restricts theorems to code points below
256 where the direction matters.
-/

namespace IBSim

/-! ### Decimal numerals

Python renders integers with `str` and parses them with `int`.  `natDecimal`
and `intDecimal` produce the canonical decimal text (most significant digit
first), and `pyIntChars?` models `int()` on plain ASCII decimal literals: an
optional sign followed by at least one digit.  (`int()` additionally strips
whitespace and accepts underscores; no theorem exercises those inputs.) -/

/-- The ASCII digit character for a value below ten. -/
def digitCharOf (d : Nat) : Char := Char.ofNat (48 + d)

/-- Fuelled digit accumulator; `natDecimal` supplies enough fuel and
`natDecimalCore_spec` recovers the obvious recursion. -/
def natDecimalCore : Nat → Nat → List Char → List Char
  | 0, _, acc => acc
  | fuel + 1, n, acc =>
      if n < 10 then digitCharOf n :: acc
      else natDecimalCore fuel (n / 10) (digitCharOf (n % 10) :: acc)

/-- Decimal digits of a natural number, most significant first. -/
def natDecimal (n : Nat) : List Char := natDecimalCore (n + 1) n []

/-- Decimal text of an integer: a `-` sign for negatives, then the digits. -/
def intDecimal (i : Int) : List Char :=
  if i < 0 then '-' :: natDecimal i.natAbs else natDecimal i.toNat

/-- The value of an ASCII digit character, if it is one. -/
def charDigit? (c : Char) : Option Nat :=
  if 48 ≤ c.toNat ∧ c.toNat ≤ 57 then some (c.toNat - 48) else none

/-- Fold a digit string onto an accumulator; `none` is absorbing. -/
def decAux : Option Nat → List Char → Option Nat
  | acc, [] => acc
  | acc, c :: cs =>
      decAux (acc.bind fun a => (charDigit? c).map fun d => 10 * a + d) cs

/-- Value of a nonempty all-digit character list, `none` otherwise. -/
def decDigits? (cs : List Char) : Option Nat :=
  match cs with
  | [] => none
  | _ => decAux (some 0) cs

/-- Model of Python `int()` on ASCII decimal literals. -/
def pyIntChars? (cs : List Char) : Option Int :=
  match cs with
  | [] => none
  | c :: rest =>
      if c = '-' then (decDigits? rest).map fun n => -(n : Int)
      else if c = '+' then (decDigits? rest).map fun n => (n : Int)
      else (decDigits? cs).map fun n => (n : Int)

/-- Model of Python `int()` applied to a string. -/
def pyIntStr (s : String) : Option Int := pyIntChars? s.data

/-! ### Frame codec (`protocol/encoder.py`, `protocol/decoder.py`)

A wire byte is a `Nat` below 256.  `fieldBytes` embeds the type dispatch of
`MessageEncoder.encode_fields` on the Python values the simulator actually
passes: `None`, `bool`, numbers and strings.  String fields are encoded with
`latin-1`, under which a character of code point `c < 256` becomes the byte
`c`; the theorems restrict string inputs to that domain (Python raises
`UnicodeEncodeError` outside it).  Numbers are rendered with `str`; the only
numbers the byte-level claims exercise are integers. -/

/-- One Python value passed to `MessageEncoder.encode_fields`. -/
inductive BField
  | bNone
  | bBool (b : Bool)
  | bInt (n : Int)
  | bStr (s : String)
deriving DecidableEq

/-- Bytes of a single field, including its trailing NUL, as produced by the
branches of `MessageEncoder.encode_fields`. -/
def fieldBytes : BField → List Nat
  | .bNone => [0]
  | .bBool b => [if b then 49 else 48, 0]
  | .bInt n => (intDecimal n).map Char.toNat ++ [0]
  | .bStr s => s.data.map Char.toNat ++ [0]

/-- The 4-byte big-endian encoding produced by `struct.pack` with format
`>I` (defined for values below `2 ^ 32`). -/
def u32be (n : Nat) : List Nat :=
  [n / 2 ^ 24 % 256, n / 2 ^ 16 % 256, n / 2 ^ 8 % 256, n % 256]

/-- The value read by `struct.unpack` with format `>I` from four bytes. -/
def u32beVal : List Nat → Nat
  | [b0, b1, b2, b3] => ((b0 * 256 + b1) * 256 + b2) * 256 + b3
  | _ => 0

/-- `MessageEncoder.encode_fields`: concatenate the encoded fields and prefix
the 4-byte big-endian body length.  `struct.pack` raises for a length of
`2 ^ 32` or more, modelled as `none`. -/
def encode_fields (fields : List BField) : Option (List Nat) :=
  let message := (fields.map fieldBytes).flatten
  if message.length < 2 ^ 32 then some (u32be message.length ++ message)
  else none

/-- `MessageEncoder.make_message`: prepend the message id field. -/
def make_message_bytes (msg_id : Int) (fields : List BField) : Option (List Nat) :=
  encode_fields (.bInt msg_id :: fields)

/-- Loop body of `MessageDecoder.decode_fields`: walk the bytes, cutting a
field at every NUL terminator; a nonempty tail with no trailing NUL becomes a
final field.  `cur` holds the bytes of the current field in reverse. -/
def decode_fields_aux : List Nat → List Char → List String
  | [], cur => if cur = [] then [] else [⟨cur.reverse⟩]
  | b :: rest, cur =>
      if b = 0 then ⟨cur.reverse⟩ :: decode_fields_aux rest []
      else decode_fields_aux rest (Char.ofNat b :: cur)

/-- `MessageDecoder.decode_fields` on a message body. -/
def decode_fields (data : List Nat) : List String :=
  decode_fields_aux data []

/-- `MessageDecoder.decode_message`: strip and check the length prefix, split
the body into fields, and parse the first field as the message id.
`.ok none` models the `(None, [])` returns (incomplete frame or empty field
list); `.error` models the `ValueError` that `int(fields[0])` raises on a
non-numeric kind field (caught by `ClientHandler._process_message`). -/
def decode_message (data : List Nat) : Except String (Option (Int × List String)) :=
  if data.length < 4 then .ok none
  else
    let msg_length := u32beVal (data.take 4)
    if data.length < 4 + msg_length then .ok none
    else
      let msg_body := (data.drop 4).take msg_length
      match decode_fields msg_body with
      | [] => .ok none
      | f0 :: rest =>
          match pyIntStr f0 with
          | none => .error ("invalid literal for int with base 10: " ++ f0)
          | some msg_id => .ok (some (msg_id, rest))

/-! ### Message catalogue (`protocol/message_ids.py`)

Modelled from the spec: the module `protocol/message_ids.py` is imported by
the encoder, decoder and session engine but is not among the sources; the
spec (§4.2, §6) states that the numeric identifiers are decimal codes fixed
to the vendor's public tables.  The values below follow those tables; no
claim depends on the particular numbers, only on the codes being the fixed
distinct constants the dispatch tables key on. -/

namespace IncomingMessageIds

def REQ_MKT_DATA : Int := 1
def CANCEL_MKT_DATA : Int := 2
def PLACE_ORDER : Int := 3
def CANCEL_ORDER : Int := 4
def REQ_OPEN_ORDERS : Int := 5
def REQ_ACCT_DATA : Int := 6
def REQ_EXECUTIONS : Int := 7
def REQ_IDS : Int := 8
def REQ_CONTRACT_DATA : Int := 9
def REQ_MANAGED_ACCTS : Int := 17
def REQ_HISTORICAL_DATA : Int := 20
def REQ_CURRENT_TIME : Int := 49
def REQ_POSITIONS : Int := 61
def START_API : Int := 71
def REQ_POSITIONS_MULTI : Int := 74
def REQ_SEC_DEF_OPT_PARAMS : Int := 78

end IncomingMessageIds

namespace OutgoingMessageIds

def TICK_PRICE : Int := 1
def TICK_SIZE : Int := 2
def ORDER_STATUS : Int := 3
def ERR_MSG : Int := 4
def OPEN_ORDER : Int := 5
def ACCT_VALUE : Int := 6
def PORTFOLIO_VALUE : Int := 7
def ACCT_UPDATE_TIME : Int := 8
def NEXT_VALID_ID : Int := 9
def CONTRACT_DATA : Int := 10
def EXECUTION_DATA : Int := 11
def MANAGED_ACCTS : Int := 15
def HISTORICAL_DATA : Int := 17
def TICK_GENERIC : Int := 45
def TICK_STRING : Int := 46
def CURRENT_TIME : Int := 49
def CONTRACT_DATA_END : Int := 52
def OPEN_ORDER_END : Int := 53
def ACCT_DOWNLOAD_END : Int := 54
def EXECUTION_DATA_END : Int := 55
def MARKET_DATA_TYPE : Int := 58
def COMMISSION_REPORT : Int := 59
def POSITION_DATA : Int := 61
def POSITION_END : Int := 62
def SECURITY_DEFINITION_OPTION_PARAMETER : Int := 75
def SECURITY_DEFINITION_OPTION_PARAMETER_END : Int := 76

end OutgoingMessageIds

namespace ErrorCodes

/-- Modelled from the spec: error code carried by the rate limiter reply. -/
def MAX_RATE_EXCEEDED : Int := 100
/-- Modelled from the spec: error code for frame/handler failures. -/
def SERVER_ERROR : Int := 320
/-- Modelled from the spec: error code for an unhandled message kind. -/
def UNKNOWN_ID : Int := 505

end ErrorCodes

/-! ### Outbound frames at the field level

The session-engine claims are about which frames a handler emits and in what
order, not about their final byte images, so outbound messages are carried as
the field vector a `MessageEncoder` builder hands to `encode_fields`: the
message id field followed by the payload fields.  `EField` mirrors the Python
values placed in those vectors (`None`, `bool`, `int`, `float`, `str`); the
simulator's `float` values are carried as rationals. -/

/-- One Python value in an outbound field vector. -/
inductive EField
  | fNone
  | fBool (b : Bool)
  | fInt (n : Int)
  | fRat (q : ℚ)
  | fStr (s : String)
deriving DecidableEq

/-- An outbound message: the field vector passed to `encode_fields`. -/
abbrev Msg := List EField

/-- An `int`-annotated Python parameter that may actually hold `None` (the
parsers produce `None` for missing or unparseable numeric fields, and the
handlers pass such values straight to the encoder, whose `None` branch
renders an empty field). -/
def ofOptInt : Option Int → EField
  | none => .fNone
  | some n => .fInt n

/-- Model of `str(x)` on a numeric value; the session-engine claims never
inspect the rendered text, only which field slot carries it. -/
def pyStr (q : ℚ) : String := toString q

/-- Decimal text of an integer as a `String` (Python `str(i)` and f-string
interpolation of an `int`). -/
def intStr (i : Int) : String := ⟨intDecimal i⟩

/-! ### Structured records (`protocol/decoder.py` parse results, store rows)

The parsers build nested `dict`s with a fixed key set per message kind; each
such dict is modelled as a structure with one field per key.  Store-adapter
rows (`database/db_manager.py`) are modelled the same way: the queries always
produce every listed column, so the handler's key accesses cannot fail. -/

/-- The contract sub-record shared by several parsed requests. -/
structure Contract where
  con_id : Option Int
  symbol : String
  sec_type : String
  expiry : String
  strike : Option ℚ
  right : String
  multiplier : Option Int
  exchange : String
  primary_exchange : String
  currency : String
  local_symbol : String
  trading_class : String
deriving DecidableEq

/-- A market-data subscription descriptor as stored by
`ClientHandler._handle_req_market_data`. -/
structure Subscription where
  contract : Contract
  generic_ticks : String
  snapshot : Bool
  regulatory_snapshot : Bool
deriving DecidableEq

/-- Row of `DatabaseManager.get_account_summary` (None when the account is
missing). -/
structure AccountSummary where
  net_liquidation : ℚ
  cash_balance : ℚ
  unrealized_pnl : ℚ
  realized_pnl : ℚ
  base_currency : String
deriving DecidableEq

/-- Row of `DatabaseManager.get_positions`. -/
structure DbPosition where
  con_id : Int
  symbol : String
  security_type : String
  currency : String
  position : ℚ
  avg_cost : ℚ
  market_price : ℚ
  market_value : ℚ
  unrealized_pnl : ℚ
  realized_pnl : ℚ
deriving DecidableEq

/-- Row of `DatabaseManager.get_contract_by_symbol`. -/
structure DbContract where
  con_id : Int
  symbol : String
  security_type : String
  exchange : String
  currency : String
  local_symbol : String
  trading_class : String
  multiplier : Int
deriving DecidableEq

/-- The synchronous store-adapter interface the session engine consumes
(spec §4.6); the open-orders rows are opaque because
`ClientHandler._handle_req_open_orders` only iterates them with `pass`. -/
structure Database where
  get_account_summary : String → Option AccountSummary
  get_positions : String → List DbPosition
  get_open_orders : String → List Unit
  get_contract_by_symbol : String → String → Option DbContract

/-- The configuration slice the session engine reads: the configured account
ids (`authentication.accounts[*].account_id`), the rate limit
(`protocol.message_rate_limit`) and the protocol version
(`protocol.version`). -/
structure Config where
  accounts : List String
  message_rate_limit : Nat
  protocol_version : Int
deriving DecidableEq

/-- Wall-clock values a handler samples: `int(time.time())` for
`CURRENT_TIME` and `datetime.now().strftime` for `ACCT_UPDATE_TIME`. -/
structure Clock where
  epoch : Int
  timeStr : String
deriving DecidableEq

/-! ### Session state (`core/client_handler.py`, `ClientHandler.__init__`)

`market_data_subscriptions` is a Python `dict` in insertion order, modelled
as an association list; its keys are the parsed `req_id` values, which may be
`None`.  `account_subscriptions` and `position_subscriptions` are `set`s of
account ids, modelled as duplicate-free lists. -/

structure Session where
  client_id : Int
  api_connected : Bool
  server_version : Int
  client_version : Option Int
  connection_time : String
  authenticated : Bool
  account_id : Option String
  username : Option String
  market_data_subscriptions : List (Option Int × Subscription)
  account_subscriptions : List String
  position_subscriptions : List String
  next_order_id : Option Int
  last_message_time : ℚ
  message_count : Nat
deriving DecidableEq

/-- `ClientHandler.__init__`: the fresh session for a newly accepted
connection, with `now` the construction time and `conn_time` its
`%Y%m%d %H:%M:%S` rendering. -/
def mkSession (cfg : Config) (client_id : Int) (now : ℚ) (conn_time : String) : Session where
  client_id := client_id
  api_connected := false
  server_version := cfg.protocol_version
  client_version := none
  connection_time := conn_time
  authenticated := false
  account_id := none
  username := none
  market_data_subscriptions := []
  account_subscriptions := []
  position_subscriptions := []
  next_order_id := none
  last_message_time := now
  message_count := 0

/-- Python `dict` assignment `d[k] = v`: replace in place if the key exists,
otherwise append in insertion order. -/
def dictInsert (k : Option Int) (v : Subscription) :
    List (Option Int × Subscription) → List (Option Int × Subscription)
  | [] => [(k, v)]
  | (k', v') :: rest =>
      if k' = k then (k, v) :: rest else (k', v') :: dictInsert k v rest

/-- Python `k in d` / `d[k]` lookup on the subscription dict. -/
def dictFind? (k : Option Int) : List (Option Int × Subscription) → Option Subscription
  | [] => none
  | (k', v') :: rest => if k' = k then some v' else dictFind? k rest

/-- Python `del d[k]`; on a dict the key occurs at most once, so deletion is
the key-filter. -/
def dictErase (k : Option Int) (l : List (Option Int × Subscription)) :
    List (Option Int × Subscription) :=
  l.filter fun p => p.1 ≠ k

/-- Python `set.add`. -/
def setAdd (a : String) (l : List String) : List String :=
  if a ∈ l then l else a :: l

/-- Python `set.discard`. -/
def setDiscard (a : String) (l : List String) : List String :=
  l.filter fun x => x ≠ a

/-! ### Outbound builders (`protocol/encoder.py`) at the field level -/

/-- `MessageEncoder.make_message`. -/
def make_message (msg_id : Int) (fields : List EField) : Msg :=
  .fInt msg_id :: fields

/-- `MessageEncoder.error_message`. -/
def error_message (req_id : Int) (error_code : Int) (error_msg : String) : Msg :=
  make_message OutgoingMessageIds.ERR_MSG
    [.fInt req_id, .fInt error_code, .fStr error_msg]

/-- `MessageEncoder.tick_price`; both call sites leave `can_auto_execute`
and `past_limit` at their defaults `True` / `False`. -/
def tick_price (req_id : Option Int) (tick_type : Int) (price : ℚ) : Msg :=
  make_message OutgoingMessageIds.TICK_PRICE
    [ofOptInt req_id, .fInt tick_type, .fRat price, .fBool true, .fBool false]

/-- `MessageEncoder.tick_size`. -/
def tick_size (req_id : Option Int) (tick_type : Int) (size : Int) : Msg :=
  make_message OutgoingMessageIds.TICK_SIZE
    [ofOptInt req_id, .fInt tick_type, .fInt size]

/-- `MessageEncoder.account_value`. -/
def account_value (key value currency account : String) : Msg :=
  make_message OutgoingMessageIds.ACCT_VALUE
    [.fStr key, .fStr value, .fStr currency, .fStr account]

/-- `MessageEncoder.portfolio_value`. -/
def portfolio_value (con_id : Int) (symbol sec_type expiry : String)
    (strike : ℚ) (right : String) (multiplier : Int)
    (primary_exch currency local_symbol trading_class : String)
    (position market_price market_value avg_cost unrealized_pnl realized_pnl : ℚ)
    (account : String) : Msg :=
  make_message OutgoingMessageIds.PORTFOLIO_VALUE
    [.fInt con_id, .fStr symbol, .fStr sec_type, .fStr expiry, .fRat strike,
     .fStr right, .fInt multiplier, .fStr primary_exch, .fStr currency,
     .fStr local_symbol, .fStr trading_class, .fRat position,
     .fRat market_price, .fRat market_value, .fRat avg_cost,
     .fRat unrealized_pnl, .fRat realized_pnl, .fStr account]

/-- `MessageEncoder.account_update_time`. -/
def account_update_time (timestamp : String) : Msg :=
  make_message OutgoingMessageIds.ACCT_UPDATE_TIME [.fStr timestamp]

/-- `MessageEncoder.account_download_end`. -/
def account_download_end (account : String) : Msg :=
  make_message OutgoingMessageIds.ACCT_DOWNLOAD_END [.fStr account]

/-- `MessageEncoder.position_data`. -/
def position_data (account : String) (con_id : Int) (symbol sec_type expiry : String)
    (strike : ℚ) (right : String) (multiplier : Int)
    (exchange currency local_symbol trading_class : String)
    (position avg_cost : ℚ) : Msg :=
  make_message OutgoingMessageIds.POSITION_DATA
    [.fStr account, .fInt con_id, .fStr symbol, .fStr sec_type, .fStr expiry,
     .fRat strike, .fStr right, .fInt multiplier, .fStr exchange,
     .fStr currency, .fStr local_symbol, .fStr trading_class,
     .fRat position, .fRat avg_cost]

/-- `MessageEncoder.position_end`. -/
def position_end : Msg :=
  make_message OutgoingMessageIds.POSITION_END []

/-- `MessageEncoder.order_status`; the session engine always passes integer
zero for the numeric progress fields. -/
def order_status (order_id : Int) (status : String)
    (filled remaining avg_fill_price : Int) (perm_id parent_id : Int)
    (last_fill_price : Int) (client_id : Int) (why_held : String)
    (mkt_cap_price : Int) : Msg :=
  make_message OutgoingMessageIds.ORDER_STATUS
    [.fInt order_id, .fStr status, .fInt filled, .fInt remaining,
     .fInt avg_fill_price, .fInt perm_id, .fInt parent_id,
     .fInt last_fill_price, .fInt client_id, .fStr why_held,
     .fInt mkt_cap_price]

/-- `MessageEncoder.open_order_end`. -/
def open_order_end : Msg :=
  make_message OutgoingMessageIds.OPEN_ORDER_END []

/-- `MessageEncoder.execution_data_end`. -/
def execution_data_end (req_id : Option Int) : Msg :=
  make_message OutgoingMessageIds.EXECUTION_DATA_END [ofOptInt req_id]

/-- `MessageEncoder.contract_data`.  The Python signature accepts further
trailing parameters (`sec_id_list` through `stock_type`) that the builder
never serializes; they are omitted here. -/
def contract_data (req_id : Option Int) (symbol sec_type expiry : String)
    (strike : ℚ) (right exchange currency local_symbol trading_class : String)
    (con_id : Int) (min_tick : ℚ) (md_size_multiplier multiplier : Int)
    (order_types valid_exchanges : String) (price_magnifier under_con_id : Int)
    (long_name primary_exchange contract_month industry category subcategory
      time_zone trading_hours liquid_hours ev_rule : String)
    (ev_multiplier : ℚ) (sec_id_list_count : Int) : Msg :=
  make_message OutgoingMessageIds.CONTRACT_DATA
    [ofOptInt req_id, .fStr symbol, .fStr sec_type, .fStr expiry, .fRat strike,
     .fStr right, .fStr exchange, .fStr currency, .fStr local_symbol,
     .fStr trading_class, .fInt con_id, .fRat min_tick,
     .fInt md_size_multiplier, .fInt multiplier, .fStr order_types,
     .fStr valid_exchanges, .fInt price_magnifier, .fInt under_con_id,
     .fStr long_name, .fStr primary_exchange, .fStr contract_month,
     .fStr industry, .fStr category, .fStr subcategory, .fStr time_zone,
     .fStr trading_hours, .fStr liquid_hours, .fStr ev_rule,
     .fRat ev_multiplier, .fInt sec_id_list_count]

/-- `MessageEncoder.contract_data_end`. -/
def contract_data_end (req_id : Option Int) : Msg :=
  make_message OutgoingMessageIds.CONTRACT_DATA_END [ofOptInt req_id]

/-- `MessageEncoder.security_definition_option_parameter_end`. -/
def security_definition_option_parameter_end (req_id : Option Int) : Msg :=
  make_message OutgoingMessageIds.SECURITY_DEFINITION_OPTION_PARAMETER_END
    [ofOptInt req_id]

/-- One historical bar row (`bars` entries of
`MessageEncoder.historical_data`); field names carry a `bar_` marker because
`open` is reserved in Lean. -/
structure Bar where
  bar_date : String
  bar_open : ℚ
  bar_high : ℚ
  bar_low : ℚ
  bar_close : ℚ
  bar_volume : Int
  bar_wap : ℚ
  bar_count : Int
deriving DecidableEq

/-- `MessageEncoder.historical_data`. -/
def historical_data (req_id : Option Int) (start_date end_date : String)
    (bar_count : Int) (bars : List Bar) : Msg :=
  make_message OutgoingMessageIds.HISTORICAL_DATA
    ([ofOptInt req_id, .fStr start_date, .fStr end_date, .fInt bar_count] ++
      (bars.map fun b =>
        [EField.fStr b.bar_date, .fRat b.bar_open, .fRat b.bar_high,
         .fRat b.bar_low, .fRat b.bar_close, .fInt b.bar_volume,
         .fRat b.bar_wap, .fInt b.bar_count]).flatten)

/-- `MessageEncoder.current_time`. -/
def current_time (time : Int) : Msg :=
  make_message OutgoingMessageIds.CURRENT_TIME [.fInt time]

/-- `MessageEncoder.next_valid_id`. -/
def next_valid_id (order_id : Int) : Msg :=
  make_message OutgoingMessageIds.NEXT_VALID_ID [.fInt order_id]

/-- `MessageEncoder.managed_accounts`. -/
def managed_accounts (accounts : String) : Msg :=
  make_message OutgoingMessageIds.MANAGED_ACCTS [.fStr accounts]

/-! ### Field readers and parsers (`protocol/decoder.py`)

`read_int` / `read_float` / `read_str` / `read_bool` index into the field
vector; past the end they return the absent value (`None` / `''` / `False`)
without advancing, and a failed numeric parse yields `None` while advancing.
Each `parse_*` threads an index through the readers and packs the result
record. -/

/-- Magnitude part of Python `float()` on plain decimal literals
(`digits`, `digits.digits`, `.digits`, `digits.`).  Exponents and the
special forms are not modelled; no claim inspects a parsed float value. -/
def pyFloatMag (cs : List Char) : Option ℚ :=
  match cs.splitOn '.' with
  | [as] => (decDigits? as).map fun n => (n : ℚ)
  | [as, bs] =>
      if as = [] ∧ bs = [] then none
      else
        let ip : Option ℚ :=
          match decDigits? as with
          | some n => some (n : ℚ)
          | none => if as = [] then some 0 else none
        let fp : Option ℚ :=
          match decDigits? bs with
          | some m => some ((m : ℚ) / 10 ^ bs.length)
          | none => if bs = [] then some 0 else none
        match ip, fp with
        | some i, some f => some (i + f)
        | _, _ => none
  | _ => none

/-- Model of Python `float()` on plain signed decimal literals. -/
def pyFloatStr (s : String) : Option ℚ :=
  match s.data with
  | [] => none
  | c :: rest =>
      if c = '-' then (pyFloatMag rest).map fun q => -q
      else if c = '+' then pyFloatMag rest
      else pyFloatMag s.data

/-- `MessageDecoder.read_int`. -/
def read_int (fields : List String) (index : Nat) : Option Int × Nat :=
  match fields[index]? with
  | none => (none, index)
  | some f => (if f = "" then none else pyIntStr f, index + 1)

/-- `MessageDecoder.read_float`. -/
def read_float (fields : List String) (index : Nat) : Option ℚ × Nat :=
  match fields[index]? with
  | none => (none, index)
  | some f => (if f = "" then none else pyFloatStr f, index + 1)

/-- `MessageDecoder.read_str`. -/
def read_str (fields : List String) (index : Nat) : String × Nat :=
  match fields[index]? with
  | none => ("", index)
  | some f => (f, index + 1)

/-- `MessageDecoder.read_bool`. -/
def read_bool (fields : List String) (index : Nat) : Bool × Nat :=
  match fields[index]? with
  | none => (false, index)
  | some f => (f = "1", index + 1)

/-- Shared contract block of `parse_req_mkt_data`, `parse_place_order`,
`parse_req_contract_details` and `parse_req_historical_data`: thirteen
sequential reads starting at `index`, in the fixed positional order. -/
def readContract (fields : List String) (index : Nat) : Contract × Nat :=
  let (con_id, i1) := read_int fields index
  let (symbol, i2) := read_str fields i1
  let (sec_type, i3) := read_str fields i2
  let (expiry, i4) := read_str fields i3
  let (strike, i5) := read_float fields i4
  let (right, i6) := read_str fields i5
  let (multiplier, i7) := read_int fields i6
  let (exchange, i8) := read_str fields i7
  let (primary_exchange, i9) := read_str fields i8
  let (currency, i10) := read_str fields i9
  let (local_symbol, i11) := read_str fields i10
  let (trading_class, i12) := read_str fields i11
  (⟨con_id, symbol, sec_type, expiry, strike, right, multiplier, exchange,
    primary_exchange, currency, local_symbol, trading_class⟩, i12)

/-- Parse result of `parse_req_mkt_data`. -/
structure ReqMktData where
  req_id : Option Int
  contract : Contract
  generic_tick_list : String
  snapshot : Bool
  regulatory_snapshot : Bool
  mkt_data_options : String
deriving DecidableEq

/-- `MessageDecoder.parse_req_mkt_data`. -/
def parse_req_mkt_data (fields : List String) : ReqMktData :=
  let (req_id, i1) := read_int fields 0
  let (contract, i2) := readContract fields i1
  let (generic_tick_list, i3) := read_str fields i2
  let (snapshot, i4) := read_bool fields i3
  let (regulatory_snapshot, i5) := read_bool fields i4
  let (mkt_data_options, _) := read_str fields i5
  ⟨req_id, contract, generic_tick_list, snapshot, regulatory_snapshot,
    mkt_data_options⟩

/-- Parse result of `parse_cancel_mkt_data`. -/
structure CancelMktData where
  req_id : Option Int
deriving DecidableEq

/-- `MessageDecoder.parse_cancel_mkt_data`. -/
def parse_cancel_mkt_data (fields : List String) : CancelMktData :=
  ⟨(read_int fields 0).1⟩

/-- The order sub-record of `parse_place_order`. -/
structure OrderRec where
  action : String
  total_quantity : Option ℚ
  order_type : String
  limit_price : Option ℚ
  aux_price : Option ℚ
  tif : String
  oca_group : String
  account : String
  open_close : String
  origin : Option Int
  order_ref : String
  transmit : Bool
  parent_id : Option Int
deriving DecidableEq

/-- Parse result of `parse_place_order`. -/
structure PlaceOrderData where
  order_id : Option Int
  contract : Contract
  order : OrderRec
deriving DecidableEq

/-- `MessageDecoder.parse_place_order`. -/
def parse_place_order (fields : List String) : PlaceOrderData :=
  let (order_id, i1) := read_int fields 0
  let (contract, i2) := readContract fields i1
  let (_sec_id_type, i3) := read_str fields i2
  let (_sec_id, i4) := read_str fields i3
  let (action, i5) := read_str fields i4
  let (total_quantity, i6) := read_float fields i5
  let (order_type, i7) := read_str fields i6
  let (limit_price, i8) := read_float fields i7
  let (aux_price, i9) := read_float fields i8
  let (tif, i10) := read_str fields i9
  let (oca_group, i11) := read_str fields i10
  let (account, i12) := read_str fields i11
  let (open_close, i13) := read_str fields i12
  let (origin, i14) := read_int fields i13
  let (order_ref, i15) := read_str fields i14
  let (transmit, i16) := read_bool fields i15
  let (parent_id, _) := read_int fields i16
  ⟨order_id, contract,
    ⟨action, total_quantity, order_type, limit_price, aux_price, tif,
      oca_group, account, open_close, origin, order_ref, transmit, parent_id⟩⟩

/-- Parse result of `parse_cancel_order`. -/
structure CancelOrderData where
  order_id : Option Int
deriving DecidableEq

/-- `MessageDecoder.parse_cancel_order`. -/
def parse_cancel_order (fields : List String) : CancelOrderData :=
  ⟨(read_int fields 0).1⟩

/-- Parse result of `parse_req_acct_data`. -/
structure ReqAcctData where
  subscribe : Bool
  account_code : String
deriving DecidableEq

/-- `MessageDecoder.parse_req_acct_data`. -/
def parse_req_acct_data (fields : List String) : ReqAcctData :=
  let (subscribe, i1) := read_bool fields 0
  let (account_code, _) := read_str fields i1
  ⟨subscribe, account_code⟩

/-- Parse result of `parse_req_contract_details`. -/
structure ReqContractData where
  req_id : Option Int
  contract : Contract
  include_expired : Bool
deriving DecidableEq

/-- `MessageDecoder.parse_req_contract_details`. -/
def parse_req_contract_details (fields : List String) : ReqContractData :=
  let (req_id, i1) := read_int fields 0
  let (contract, i2) := readContract fields i1
  let (include_expired, _) := read_bool fields i2
  ⟨req_id, contract, include_expired⟩

/-- Parse result of `parse_req_sec_def_opt_params`. -/
structure ReqSecDefOptParams where
  req_id : Option Int
  underlying_symbol : String
  fut_fop_exchange : String
  underlying_sec_type : String
  underlying_con_id : Option Int
deriving DecidableEq

/-- `MessageDecoder.parse_req_sec_def_opt_params`. -/
def parse_req_sec_def_opt_params (fields : List String) : ReqSecDefOptParams :=
  let (req_id, i1) := read_int fields 0
  let (underlying_symbol, i2) := read_str fields i1
  let (fut_fop_exchange, i3) := read_str fields i2
  let (underlying_sec_type, i4) := read_str fields i3
  let (underlying_con_id, _) := read_int fields i4
  ⟨req_id, underlying_symbol, fut_fop_exchange, underlying_sec_type,
    underlying_con_id⟩

/-- The execution filter sub-record of `parse_req_executions`. -/
structure ExecFilter where
  client_id : Option Int
  account_code : String
  time : String
  symbol : String
  sec_type : String
  exchange : String
  side : String
deriving DecidableEq

/-- Parse result of `parse_req_executions`. -/
structure ReqExecutions where
  req_id : Option Int
  filter : ExecFilter
deriving DecidableEq

/-- `MessageDecoder.parse_req_executions`. -/
def parse_req_executions (fields : List String) : ReqExecutions :=
  let (req_id, i1) := read_int fields 0
  let (client_id, i2) := read_int fields i1
  let (account_code, i3) := read_str fields i2
  let (time, i4) := read_str fields i3
  let (symbol, i5) := read_str fields i4
  let (sec_type, i6) := read_str fields i5
  let (exchange, i7) := read_str fields i6
  let (side, _) := read_str fields i7
  ⟨req_id, ⟨client_id, account_code, time, symbol, sec_type, exchange, side⟩⟩

/-- Parse result of `parse_req_ids`. -/
structure ReqIds where
  num_ids : Option Int
deriving DecidableEq

/-- `MessageDecoder.parse_req_ids`: defaults to one id, overridden by a
leading field when present. -/
def parse_req_ids (fields : List String) : ReqIds :=
  match fields with
  | [] => ⟨some 1⟩
  | _ => ⟨(read_int fields 0).1⟩

/-- Parse result of `parse_req_historical_data`. -/
structure ReqHistoricalData where
  req_id : Option Int
  contract : Contract
  end_date_time : String
  bar_size_setting : String
  duration_str : String
  use_rth : Bool
  what_to_show : String
  format_date : Option Int
deriving DecidableEq

/-- `MessageDecoder.parse_req_historical_data`. -/
def parse_req_historical_data (fields : List String) : ReqHistoricalData :=
  let (req_id, i1) := read_int fields 0
  let (contract, i2) := readContract fields i1
  let (_include_expired, i3) := read_bool fields i2
  let (end_date_time, i4) := read_str fields i3
  let (bar_size_setting, i5) := read_str fields i4
  let (duration_str, i6) := read_str fields i5
  let (use_rth, i7) := read_bool fields i6
  let (what_to_show, i8) := read_str fields i7
  let (format_date, _) := read_int fields i8
  ⟨req_id, contract, end_date_time, bar_size_setting, duration_str, use_rth,
    what_to_show, format_date⟩

/-- Parse result of `parse_start_api`. -/
structure StartApiData where
  client_id : Option Int
  optional_capabilities : String
deriving DecidableEq

/-- `MessageDecoder.parse_start_api`. -/
def parse_start_api (fields : List String) : StartApiData :=
  let (client_id, i1) := read_int fields 0
  let (optional_capabilities, _) := read_str fields i1
  ⟨client_id, optional_capabilities⟩

/-! ### Message handlers (`core/client_handler.py`)

A handler consumes its parsed record and produces the updated session plus
the outbound frames it emits, in emission order.  Handlers that can raise a
Python exception (an `IndexError` on an empty configured account list, or the
`TypeError` from `order_id + 1000` when the order id parsed as `None`) return
`Except String`; `ClientHandler._process_message` catches such exceptions and
surfaces them as `ERR_MSG(SERVER_ERROR)`.  In every raising path the
exception fires before any state mutation or send. -/

/-- Python `self.config['authentication']['accounts'][0]['account_id']`:
raises `IndexError` when no account is configured. -/
def firstAccount (cfg : Config) : Except String String :=
  match cfg.accounts with
  | [] => .error "IndexError: list index out of range"
  | a :: _ => .ok a

/-- `ClientHandler._send_next_valid_id`: adopt the server-provided order id
and emit `NEXT_VALID_ID`. -/
def send_next_valid_id (srv_next_order_id : Int) (s : Session) : Session × Msg :=
  ({ s with next_order_id := some srv_next_order_id },
    next_valid_id srv_next_order_id)

/-- `ClientHandler._send_managed_accounts`: the comma-joined configured
account ids. -/
def send_managed_accounts (cfg : Config) : Msg :=
  managed_accounts (String.intercalate "," cfg.accounts)

/-- `ClientHandler._handle_start_api`. -/
def handle_start_api (cfg : Config) (srv_next_order_id : Int) (s : Session)
    (d : StartApiData) : Session × List Msg :=
  let s1 := match d.client_id with
    | some c => { s with client_id := c }
    | none => s
  let (s2, m1) := send_next_valid_id srv_next_order_id s1
  (s2, [m1, send_managed_accounts cfg])

/-- `ClientHandler._handle_req_ids`. -/
def handle_req_ids (srv_next_order_id : Int) (s : Session) : Session × List Msg :=
  let (s1, m1) := send_next_valid_id srv_next_order_id s
  (s1, [m1])

/-- `ClientHandler._send_portfolio_position`. -/
def send_portfolio_position (account_id : String) (p : DbPosition) : Msg :=
  portfolio_value p.con_id p.symbol p.security_type "" 0 "" 1 ""
    p.currency p.symbol p.symbol p.position p.market_price p.market_value
    p.avg_cost p.unrealized_pnl p.realized_pnl account_id

/-- `ClientHandler._send_position_data`. -/
def send_position_data (account_id : String) (p : DbPosition) : Msg :=
  position_data account_id p.con_id p.symbol p.security_type "" 0 "" 1
    "SMART" p.currency p.symbol p.symbol p.position p.avg_cost

/-- `ClientHandler._send_account_updates`: the subscribe burst.  When the
store has no summary row the four `ACCT_VALUE`s and the timestamp are
skipped; the portfolio frames and the end marker are always sent. -/
def send_account_updates (db : Database) (clock : Clock)
    (account_id : String) : List Msg :=
  (match db.get_account_summary account_id with
   | none => []
   | some ad =>
      [account_value "NetLiquidation" (pyStr ad.net_liquidation)
        ad.base_currency account_id,
       account_value "TotalCashValue" (pyStr ad.cash_balance)
        ad.base_currency account_id,
       account_value "UnrealizedPnL" (pyStr ad.unrealized_pnl)
        ad.base_currency account_id,
       account_value "RealizedPnL" (pyStr ad.realized_pnl)
        ad.base_currency account_id,
       account_update_time clock.timeStr]) ++
  (db.get_positions account_id).map (send_portfolio_position account_id) ++
  [account_download_end account_id]

/-- `ClientHandler._handle_req_account_data`. -/
def handle_req_account_data (cfg : Config) (db : Database) (clock : Clock)
    (s : Session) (d : ReqAcctData) : Except String (Session × List Msg) := do
  let account_code ←
    if d.account_code = "" then firstAccount cfg else .ok d.account_code
  if d.subscribe then
    .ok ({ s with account_subscriptions :=
            setAdd account_code s.account_subscriptions },
      send_account_updates db clock account_code)
  else
    .ok ({ s with account_subscriptions :=
            setDiscard account_code s.account_subscriptions },
      [account_download_end account_code])

/-- `ClientHandler._handle_req_positions`. -/
def handle_req_positions (cfg : Config) (db : Database) (s : Session) :
    Except String (Session × List Msg) := do
  let account_id ← firstAccount cfg
  .ok (s, (db.get_positions account_id).map (send_position_data account_id)
    ++ [position_end])

/-- `ClientHandler._send_initial_market_data`: the fixed burst around the
sample base price `100.0`. -/
def send_initial_market_data (req_id : Option Int) : List Msg :=
  [tick_price req_id 1 (100 - 1 / 100),
   tick_price req_id 2 (100 + 1 / 100),
   tick_price req_id 4 100,
   tick_size req_id 0 100,
   tick_size req_id 3 100,
   tick_size req_id 5 50,
   tick_size req_id 8 1000000]

/-- `ClientHandler._handle_req_market_data`. -/
def handle_req_market_data (s : Session) (d : ReqMktData) : Session × List Msg :=
  let sub : Subscription :=
    ⟨d.contract, d.generic_tick_list, d.snapshot, d.regulatory_snapshot⟩
  ({ s with market_data_subscriptions :=
      dictInsert d.req_id sub s.market_data_subscriptions },
    send_initial_market_data d.req_id)

/-- `ClientHandler._handle_cancel_market_data`. -/
def handle_cancel_market_data (s : Session) (d : CancelMktData) :
    Session × List Msg :=
  if (dictFind? d.req_id s.market_data_subscriptions).isSome then
    ({ s with market_data_subscriptions :=
        dictErase d.req_id s.market_data_subscriptions }, [])
  else (s, [])

/-- `ClientHandler._send_order_status`: `order_id + 1000` raises a
`TypeError` when the parsed order id is `None`, before anything is sent. -/
def send_order_status (s : Session) (order_id : Option Int) (status : String) :
    Except String Msg :=
  match order_id with
  | none =>
      .error "TypeError: unsupported operand types for addition: NoneType and int"
  | some oid =>
      .ok (order_status oid status 0 0 0 (oid + 1000) 0 0 s.client_id "" 0)

/-- `ClientHandler._handle_place_order`; the `order_data` record built first
indexes the configured accounts. -/
def handle_place_order (cfg : Config) (s : Session) (d : PlaceOrderData) :
    Except String (Session × List Msg) := do
  let _account ← firstAccount cfg
  let m1 ← send_order_status s d.order_id "PendingSubmit"
  let m2 ← send_order_status s d.order_id "Submitted"
  .ok (s, [m1, m2])

/-- `ClientHandler._handle_cancel_order`. -/
def handle_cancel_order (s : Session) (d : CancelOrderData) :
    Except String (Session × List Msg) := do
  let m1 ← send_order_status s d.order_id "PendingCancel"
  let m2 ← send_order_status s d.order_id "Cancelled"
  .ok (s, [m1, m2])

/-- `ClientHandler._handle_req_open_orders`: the open orders are fetched and
iterated without emitting anything, then the end marker is sent. -/
def handle_req_open_orders (cfg : Config) (db : Database) (s : Session) :
    Except String (Session × List Msg) := do
  let account_id ← firstAccount cfg
  let _orders := db.get_open_orders account_id
  .ok (s, [open_order_end])

/-- `ClientHandler._send_contract_details`. -/
def send_contract_details (req_id : Option Int) (info : DbContract) : Msg :=
  contract_data req_id info.symbol info.security_type "" 0 "" info.exchange
    info.currency info.local_symbol info.trading_class info.con_id (1 / 100)
    1 info.multiplier "MKT,LMT,STP,STP_LMT" "SMART,NYSE,NASDAQ" 1 0
    info.symbol "SMART" "" "" "" "" "EST" "09:30-16:00" "09:30-16:00" "" 0 0

/-- `ClientHandler._handle_req_contract_details`. -/
def handle_req_contract_details (db : Database) (s : Session)
    (d : ReqContractData) : Session × List Msg :=
  (s,
    (if d.contract.symbol ≠ "" then
      match db.get_contract_by_symbol d.contract.symbol d.contract.sec_type with
      | some info => [send_contract_details d.req_id info]
      | none => []
    else []) ++ [contract_data_end d.req_id])

/-- `ClientHandler._handle_req_option_params`. -/
def handle_req_option_params (s : Session) (d : ReqSecDefOptParams) :
    Session × List Msg :=
  (s, [security_definition_option_parameter_end d.req_id])

/-- `ClientHandler._handle_req_current_time`. -/
def handle_req_current_time (clock : Clock) (s : Session) : Session × List Msg :=
  (s, [current_time clock.epoch])

/-- `ClientHandler._handle_req_executions`. -/
def handle_req_executions (s : Session) (d : ReqExecutions) : Session × List Msg :=
  (s, [execution_data_end d.req_id])

/-- `ClientHandler._handle_req_historical_data`: an empty result. -/
def handle_req_historical_data (s : Session) (d : ReqHistoricalData) :
    Session × List Msg :=
  (s, [historical_data d.req_id "" "" 0 []])

/-- `ClientHandler._route_message`: look the kind up in the dispatch table
(in the table's order), parse, and run the handler; unknown kinds get
`ERR_MSG(req_id=-1, UNKNOWN_ID, "Unknown message ID: K")` and leave the
session untouched. -/
def routeMessage (cfg : Config) (db : Database) (clock : Clock)
    (srv_next_order_id : Int) (s : Session) (msg_id : Int)
    (fields : List String) : Except String (Session × List Msg) :=
  if msg_id = IncomingMessageIds.START_API then
    .ok (handle_start_api cfg srv_next_order_id s (parse_start_api fields))
  else if msg_id = IncomingMessageIds.REQ_IDS then
    .ok (handle_req_ids srv_next_order_id s)
  else if msg_id = IncomingMessageIds.REQ_MANAGED_ACCTS then
    .ok (s, [send_managed_accounts cfg])
  else if msg_id = IncomingMessageIds.REQ_ACCT_DATA then
    handle_req_account_data cfg db clock s (parse_req_acct_data fields)
  else if msg_id = IncomingMessageIds.REQ_POSITIONS then
    handle_req_positions cfg db s
  else if msg_id = IncomingMessageIds.REQ_MKT_DATA then
    .ok (handle_req_market_data s (parse_req_mkt_data fields))
  else if msg_id = IncomingMessageIds.CANCEL_MKT_DATA then
    .ok (handle_cancel_market_data s (parse_cancel_mkt_data fields))
  else if msg_id = IncomingMessageIds.PLACE_ORDER then
    handle_place_order cfg s (parse_place_order fields)
  else if msg_id = IncomingMessageIds.CANCEL_ORDER then
    handle_cancel_order s (parse_cancel_order fields)
  else if msg_id = IncomingMessageIds.REQ_OPEN_ORDERS then
    handle_req_open_orders cfg db s
  else if msg_id = IncomingMessageIds.REQ_CONTRACT_DATA then
    .ok (handle_req_contract_details db s (parse_req_contract_details fields))
  else if msg_id = IncomingMessageIds.REQ_SEC_DEF_OPT_PARAMS then
    .ok (handle_req_option_params s (parse_req_sec_def_opt_params fields))
  else if msg_id = IncomingMessageIds.REQ_CURRENT_TIME then
    .ok (handle_req_current_time clock s)
  else if msg_id = IncomingMessageIds.REQ_EXECUTIONS then
    .ok (handle_req_executions s (parse_req_executions fields))
  else if msg_id = IncomingMessageIds.REQ_HISTORICAL_DATA then
    .ok (handle_req_historical_data s (parse_req_historical_data fields))
  else
    .ok (s, [error_message (-1) ErrorCodes.UNKNOWN_ID
      ("Unknown message ID: " ++ intStr msg_id)])

/-! ### Rate limiter and ingress (`ClientHandler._check_rate_limit`,
`ClientHandler._process_message`) -/

/-- The window-reset step of `ClientHandler._check_rate_limit`
(`rate_limit_window = 1.0`). -/
def rate_reset (s : Session) (now : ℚ) : Session :=
  if now - s.last_message_time > 1 then
    { s with message_count := 0, last_message_time := now }
  else s

/-- `ClientHandler._check_rate_limit`: reset the window if stale, count the
message, and compare against `protocol.message_rate_limit`. -/
def check_rate_limit (cfg : Config) (s : Session) (now : ℚ) : Session × Bool :=
  let s1 := rate_reset s now
  let s2 := { s1 with message_count := s1.message_count + 1 }
  (s2, decide (s2.message_count ≤ cfg.message_rate_limit))

/-- The decode-and-dispatch tail of `ClientHandler._process_message`: the
part that runs once the rate limiter admits the frame.  A decode or handler
exception is caught and surfaced as `ERR_MSG(SERVER_ERROR)`. -/
def handle_decoded (cfg : Config) (db : Database) (clock : Clock)
    (srv_next_order_id : Int) (s : Session) (data : List Nat) :
    Session × List Msg :=
  match decode_message data with
  | .error e => (s, [error_message (-1) ErrorCodes.SERVER_ERROR e])
  | .ok none => (s, [])
  | .ok (some (msg_id, fields)) =>
      match routeMessage cfg db clock srv_next_order_id s msg_id fields with
      | .ok r => r
      | .error e => (s, [error_message (-1) ErrorCodes.SERVER_ERROR e])

/-- `ClientHandler._process_message` on one complete frame arriving at `now`. -/
def process_message (cfg : Config) (db : Database) (clock : Clock)
    (srv_next_order_id : Int) (s : Session) (now : ℚ) (data : List Nat) :
    Session × List Msg :=
  let (s1, ok) := check_rate_limit cfg s now
  if ok then handle_decoded cfg db clock srv_next_order_id s1 data
  else (s1, [error_message (-1) ErrorCodes.MAX_RATE_EXCEEDED
    "Max message rate exceeded"])

/-- The ingress loop over a sequence of timestamped complete frames. -/
def process_all (cfg : Config) (db : Database) (clock : Clock)
    (srv_next_order_id : Int) :
    Session → List (ℚ × List Nat) → Session × List Msg
  | s, [] => (s, [])
  | s, (t, d) :: rest =>
      let (s1, out) := process_message cfg db clock srv_next_order_id s t d
      let (s2, outs) := process_all cfg db clock srv_next_order_id s1 rest
      (s2, out ++ outs)

/-! ### Broadcast sink (`ClientHandler.send_market_data`) -/

/-- A broadcast tick dict; present keys are `some`. -/
structure TickData where
  bid : Option ℚ
  ask : Option ℚ
  last : Option ℚ
  bid_size : Option Int
  ask_size : Option Int
  volume : Option Int
deriving DecidableEq

/-- Python `if 'key' in data: await self._send_raw(build(data['key']))`: one
message when the key is present, nothing otherwise. -/
def optMsg : Option α → (α → Msg) → List Msg
  | none, _ => []
  | some x, f => [f x]

/-- The per-subscription emissions of `ClientHandler.send_market_data`, in
source order (bid, ask, last, bid size, ask size, volume). -/
def tickMsgs (req_id : Option Int) (data : TickData) : List Msg :=
  optMsg data.bid (tick_price req_id 1) ++
  optMsg data.ask (tick_price req_id 2) ++
  optMsg data.last (tick_price req_id 4) ++
  optMsg data.bid_size (tick_size req_id 0) ++
  optMsg data.ask_size (tick_size req_id 3) ++
  optMsg data.volume (tick_size req_id 8)

/-- `ClientHandler.send_market_data`: every stored subscription whose
contract symbol matches emits its tick messages. -/
def send_market_data (s : Session) (symbol : String) (data : TickData) :
    List Msg :=
  (s.market_data_subscriptions.map fun p =>
    if p.2.contract.symbol = symbol then tickMsgs p.1 data else []).flatten

/-- `ClientHandler.is_subscribed_to_symbol`. -/
def is_subscribed_to_symbol (s : Session) (symbol : String) : Bool :=
  s.market_data_subscriptions.any fun p => p.2.contract.symbol = symbol

/-! ### Handshake (`ClientHandler._handle_initial_handshake`) -/

/-- Python `data.split(b'\x00')`: split the read bytes on the NUL
separator (a trailing separator contributes a trailing empty part). -/
def pySplit0 : List Nat → List (List Nat)
  | [] => [[]]
  | b :: rest =>
      if b = 0 then [] :: pySplit0 rest
      else match pySplit0 rest with
        | [] => [[b]]
        | p :: ps => (b :: p) :: ps

/-- Python `version_str.split('..')`: split on the two-character separator,
non-overlapping, left to right. -/
def splitDD : List Char → List (List Char)
  | [] => [[]]
  | '.' :: '.' :: rest => [] :: splitDD rest
  | c :: rest =>
      match splitDD rest with
      | [] => [[c]]
      | p :: ps => (c :: p) :: ps

/-- The leading-`v` strip of `_handle_initial_handshake`. -/
def stripV (tok : List Char) : List Char :=
  match tok with
  | 'v' :: rest => rest
  | _ => tok

/-- The version-token parse of `_handle_initial_handshake`: strip a leading
`v`, then a `min..max` range takes `max` and a plain token is parsed as an
integer; every failure falls back to 100. -/
def parseClientVersion (tok : List Char) : Int :=
  match splitDD (stripV tok) with
  | [single] => (pyIntChars? single).getD 100
  | [_, mx] => (pyIntChars? mx).getD 100
  | _ => 100

/-- `ClientHandler._handle_initial_handshake` on the first socket read.  An
empty read returns with no reply and the session still unconnected.
Otherwise: only a read bearing the literal `API\0` marker has its
version token parsed (`split(b'\x00')[1]` when present), and the
server-version reply (two fields, no kind identifier) is sent and the
session marked connected regardless. -/
def handshake (s : Session) (data : List Nat) :
    Session × Option (Option (List Nat)) :=
  if data = [] then (s, none)
  else
    let s1 :=
      if [65, 80, 73, 0].isPrefixOf data then
        match (pySplit0 data)[1]? with
        | some tokBytes =>
            let cv := parseClientVersion (tokBytes.map Char.ofNat)
            { s with client_version := some cv }
        | none => s
      else s
    ({ s1 with api_connected := true },
      some (encode_fields [.bInt s.server_version, .bStr s.connection_time]))

/-! ### Listener and registry (`core/server.py`) -/

/-- The client registry: `clients` holds the registered ids in insertion
order, `next_client_id` the accept counter. -/
structure ServerState where
  clients : List Nat
  next_client_id : Nat
deriving DecidableEq

inductive AcceptOutcome
  | rejected
  | accepted (client_id : Nat)
deriving DecidableEq

/-- `IBSimulatorServer.handle_client` at accept time: draw and bump the
client id, then either close immediately (at the cap) or register.  The
third component is the bytes written before the close on the reject path —
always none. -/
def handle_client (max_clients : Nat) (st : ServerState) :
    ServerState × AcceptOutcome × List Nat :=
  let client_id := st.next_client_id
  let st1 : ServerState := { st with next_client_id := st.next_client_id + 1 }
  if max_clients ≤ st1.clients.length then (st1, .rejected, [])
  else ({ st1 with clients := st1.clients ++ [client_id] },
    .accepted client_id, [])

/-- Registry cleanup on session termination. -/
def remove_client (cid : Nat) (st : ServerState) : ServerState :=
  { st with clients := st.clients.filter fun x => x ≠ cid }

/-- Registry-affecting events. -/
inductive ServerEvent
  | accept
  | disconnect (client_id : Nat)

/-- One registry transition. -/
def server_step (max_clients : Nat) (st : ServerState) : ServerEvent → ServerState
  | .accept => (handle_client max_clients st).1
  | .disconnect cid => remove_client cid st

/-- Run the registry over an event trace. -/
def run_server (max_clients : Nat) : ServerState → List ServerEvent → ServerState
  | st, [] => st
  | st, e :: evs => run_server max_clients (server_step max_clients st e) evs

/-- `IBSimulatorServer.__init__`: empty registry, ids start at 1. -/
def initial_server : ServerState := ⟨[], 1⟩

/-- The client ids handed out to accepted (registered) connections along an
event trace, in order. -/
def accepted_ids (max_clients : Nat) : ServerState → List ServerEvent → List Nat
  | _, [] => []
  | st, .accept :: evs =>
      match handle_client max_clients st with
      | (st', .accepted cid, _) => cid :: accepted_ids max_clients st' evs
      | (st', .rejected, _) => accepted_ids max_clients st' evs
  | st, .disconnect cid :: evs =>
      accepted_ids max_clients (remove_client cid st) evs

/-- The kinds present in the `_route_message` dispatch table. -/
def handledKinds : List Int :=
  [IncomingMessageIds.START_API, IncomingMessageIds.REQ_IDS,
   IncomingMessageIds.REQ_MANAGED_ACCTS, IncomingMessageIds.REQ_ACCT_DATA,
   IncomingMessageIds.REQ_POSITIONS, IncomingMessageIds.REQ_MKT_DATA,
   IncomingMessageIds.CANCEL_MKT_DATA, IncomingMessageIds.PLACE_ORDER,
   IncomingMessageIds.CANCEL_ORDER, IncomingMessageIds.REQ_OPEN_ORDERS,
   IncomingMessageIds.REQ_CONTRACT_DATA,
   IncomingMessageIds.REQ_SEC_DEF_OPT_PARAMS,
   IncomingMessageIds.REQ_CURRENT_TIME, IncomingMessageIds.REQ_EXECUTIONS,
   IncomingMessageIds.REQ_HISTORICAL_DATA]

/-! ### Concrete instances used by the witnesses -/

/-- Concrete configuration: one paper account, rate limit 50, version 176. -/
def cfgW : Config := ⟨["DU000001"], 50, 176⟩

/-- Concrete account summary row. -/
def sumW : AccountSummary := ⟨100000, 50000, 1000, 500, "USD"⟩

/-- Concrete position row. -/
def posW : DbPosition := ⟨265598, "AAPL", "STK", "USD", 100, 150, 175, 17500, 2500, 0⟩

/-- Concrete contract row. -/
def conW : DbContract := ⟨265598, "AAPL", "STK", "SMART", "USD", "AAPL", "AAPL", 1⟩

/-- Concrete store adapter. -/
def dbW : Database :=
  ⟨fun _ => some sumW, fun _ => [posW], fun _ => [], fun _ _ => some conW⟩

/-- Concrete clock sample. -/
def clockW : Clock := ⟨1760227200, "10:00:00"⟩

/-- Fresh session for witnesses. -/
def sW : Session := mkSession cfgW 1 0 "20251012 10:00:00"

/-- A sample subscribed contract. -/
def subContractW : Contract :=
  ⟨some 265598, "NVDA", "STK", "", none, "", none, "SMART", "", "USD", "NVDA", "NVDA"⟩

/-- A sample subscription descriptor. -/
def subW : Subscription := ⟨subContractW, "", false, false⟩

/-- A parsed market-data request used by witnesses. -/
def reqMktW : ReqMktData := ⟨some 100, subContractW, "", false, false, ""⟩

/-- A second subscribed contract (different symbol). -/
def aaplContractW : Contract :=
  ⟨some 265598, "AAPL", "STK", "", none, "", none, "SMART", "", "USD", "AAPL", "AAPL"⟩

/-- A session holding two market-data subscriptions, used by witnesses. -/
def sSubW : Session :=
  { sW with market_data_subscriptions :=
      [(some 10, subW), (some 20, ⟨aaplContractW, "", false, false⟩)] }

/-- A broadcast tick sample. -/
def ticksW : TickData := ⟨some 1, none, none, none, none, some 5000⟩

/-- A frame is the rate-limiter error reply: an `ERR_MSG` whose error-code
slot carries `MAX_RATE_EXCEEDED`. -/
def isRateErr (m : Msg) : Bool :=
  m.head? == some (.fInt OutgoingMessageIds.ERR_MSG) &&
  m[2]? == some (.fInt ErrorCodes.MAX_RATE_EXCEEDED)

/-- The reference ingress run in which every frame reaches decode/dispatch:
the limiter bookkeeping still runs, but its verdict is ignored.  Claim C3's
"all frames are dispatched" is `process_all = dispatch_all`. -/
def dispatch_all (cfg : Config) (db : Database) (clock : Clock)
    (srv_next_order_id : Int) :
    Session → List (ℚ × List Nat) → Session × List Msg
  | s, [] => (s, [])
  | s, (t, d) :: rest =>
      let s1 := (check_rate_limit cfg s t).1
      let (s2, out) := handle_decoded cfg db clock srv_next_order_id s1 d
      let (s3, outs) := dispatch_all cfg db clock srv_next_order_id s2 rest
      (s3, out ++ outs)

/-! ### Theorems -/

theorem natDecimalCore_spec :
    ∀ n : Nat, ∀ fuel acc, n < fuel →
      natDecimalCore fuel n acc = natDecimal n ++ acc := by
  intro n
  induction n using Nat.strong_induction_on with
  | _ n ih =>
    intro fuel acc hfuel
    match fuel, hfuel with
    | fuel + 1, hfuel =>
      by_cases h : n < 10
      · simp [natDecimalCore, natDecimal, h]
      · have hdiv : n / 10 < n := Nat.div_lt_self (by omega) (by omega)
        have hstep : natDecimalCore (fuel + 1) n acc
            = natDecimalCore fuel (n / 10) (digitCharOf (n % 10) :: acc) := by
          rw [show natDecimalCore (fuel + 1) n acc
              = if n < 10 then digitCharOf n :: acc
                else natDecimalCore fuel (n / 10) (digitCharOf (n % 10) :: acc)
              from rfl, if_neg h]
        have hstep2 : natDecimal n = natDecimalCore n (n / 10) [digitCharOf (n % 10)] := by
          show natDecimalCore (n + 1) n [] = _
          rw [show natDecimalCore (n + 1) n []
              = if n < 10 then digitCharOf n :: ([] : List Char)
                else natDecimalCore n (n / 10) [digitCharOf (n % 10)]
              from rfl, if_neg h]
        rw [hstep, ih (n / 10) hdiv fuel _ (by omega), hstep2,
          ih (n / 10) hdiv n _ (by omega)]
        simp

/-- Unfolding equation for `natDecimal`. -/
theorem natDecimal_eq (n : Nat) :
    natDecimal n
      = if n < 10 then [digitCharOf n]
        else natDecimal (n / 10) ++ [digitCharOf (n % 10)] := by
  by_cases h : n < 10
  · simp [natDecimal, natDecimalCore, h]
  · simp only [if_neg h]
    show natDecimalCore (n + 1) n [] = _
    rw [show natDecimalCore (n + 1) n []
        = if n < 10 then digitCharOf n :: ([] : List Char)
          else natDecimalCore n (n / 10) [digitCharOf (n % 10)]
        from rfl, if_neg h,
      natDecimalCore_spec (n / 10) n _ (by omega)]

theorem digitCharOf_toNat {d : Nat} (h : d < 10) :
    (digitCharOf d).toNat = 48 + d := by
  revert h; revert d; decide

theorem charDigit?_digitCharOf {d : Nat} (h : d < 10) :
    charDigit? (digitCharOf d) = some d := by
  revert h; revert d; decide

theorem natDecimal_ne_nil (n : Nat) : natDecimal n ≠ [] := by
  rw [natDecimal_eq]
  split <;> simp

theorem natDecimal_digits (n : Nat) :
    ∀ c ∈ natDecimal n, 48 ≤ c.toNat ∧ c.toNat ≤ 57 := by
  induction n using Nat.strong_induction_on with
  | _ n ih =>
    rw [natDecimal_eq]
    split
    next h =>
      intro c hc
      simp only [List.mem_singleton] at hc
      subst hc
      rw [digitCharOf_toNat h]; omega
    next h =>
      intro c hc
      rcases List.mem_append.mp hc with h1 | h2
      · exact ih (n / 10) (Nat.div_lt_self (by omega) (by omega)) c h1
      · simp only [List.mem_singleton] at h2
        subst h2
        rw [digitCharOf_toNat (Nat.mod_lt _ (by omega))]
        have := Nat.mod_lt n (y := 10) (by omega)
        omega

theorem decAux_append (acc : Option Nat) (xs ys : List Char) :
    decAux acc (xs ++ ys) = decAux (decAux acc xs) ys := by
  induction xs generalizing acc with
  | nil => rfl
  | cons c cs ih => simp [decAux, ih]

theorem decAux_natDecimal (n : Nat) :
    ∀ a : Nat, decAux (some a) (natDecimal n)
      = some (a * 10 ^ (natDecimal n).length + n) := by
  induction n using Nat.strong_induction_on with
  | _ n ih =>
    intro a
    rw [natDecimal_eq]
    split
    next h =>
      simp [decAux, charDigit?_digitCharOf h]
      ring
    next h =>
      have hm : n % 10 < 10 := Nat.mod_lt _ (by omega)
      rw [decAux_append, ih (n / 10) (Nat.div_lt_self (by omega) (by omega)) a]
      set k := (natDecimal (n / 10)).length with hk
      simp [decAux, charDigit?_digitCharOf hm]
      calc 10 * (a * 10 ^ k + n / 10) + n % 10
          = a * (10 ^ k * 10) + (10 * (n / 10) + n % 10) := by ring
        _ = a * 10 ^ (k + 1) + n := by rw [pow_succ, Nat.div_add_mod]

theorem decDigits?_natDecimal (n : Nat) :
    decDigits? (natDecimal n) = some n := by
  have hne := natDecimal_ne_nil n
  unfold decDigits?
  split
  · exact absurd (by assumption) hne
  · rw [decAux_natDecimal n 0]; simp

theorem natDecimal_head_digit (n : Nat) :
    ∃ c cs, natDecimal n = c :: cs ∧ 48 ≤ c.toNat ∧ c.toNat ≤ 57 := by
  rcases h : natDecimal n with _ | ⟨c, cs⟩
  · exact absurd h (natDecimal_ne_nil n)
  · exact ⟨c, cs, rfl, natDecimal_digits n c (h ▸ List.mem_cons_self c cs)⟩

theorem pyIntChars?_intDecimal (i : Int) :
    pyIntChars? (intDecimal i) = some i := by
  unfold intDecimal
  split
  next h =>
    simp only [pyIntChars?, if_pos rfl]
    rw [decDigits?_natDecimal]
    have hcast : ((i.natAbs : Nat) : Int) = -i := by omega
    simp [hcast]
  next h =>
    obtain ⟨c, cs, hcons, h48, h57⟩ := natDecimal_head_digit i.toNat
    rw [hcons]
    have hne1 : c ≠ '-' := by
      intro hh; subst hh; revert h48; decide
    have hne2 : c ≠ '+' := by
      intro hh; subst hh; revert h48; decide
    simp only [pyIntChars?, if_neg hne1, if_neg hne2]
    rw [← hcons, decDigits?_natDecimal]
    have hcast : ((i.toNat : Nat) : Int) = i := by omega
    simp [hcast]


theorem intDecimal_bytes (i : Int) :
    ∀ c ∈ intDecimal i, c.toNat ≠ 0 ∧ c.toNat < 256 := by
  intro c hc
  unfold intDecimal at hc
  split at hc
  · rcases List.mem_cons.mp hc with h1 | h2
    · subst h1; decide
    · have := natDecimal_digits _ c h2; omega
  · have := natDecimal_digits _ c hc; omega

theorem u32be_length (n : Nat) : (u32be n).length = 4 := rfl

theorem u32beVal_u32be {n : Nat} (h : n < 2 ^ 32) : u32beVal (u32be n) = n := by
  simp only [u32be, u32beVal]
  omega

/-- Decoding one NUL-terminated field peels off exactly that field, provided
its characters avoid NUL. -/
theorem decode_fields_aux_field (s : List Char) (rest : List Nat) (cur : List Char)
    (h : ∀ c ∈ s, c.toNat ≠ 0) :
    decode_fields_aux (s.map Char.toNat ++ 0 :: rest) cur
      = ⟨cur.reverse ++ s⟩ :: decode_fields_aux rest [] := by
  induction s generalizing cur with
  | nil => simp [decode_fields_aux]
  | cons c cs ih =>
    have hc : c.toNat ≠ 0 := h c (List.mem_cons_self c cs)
    simp only [List.map_cons, List.cons_append, decode_fields_aux, if_neg hc,
      Char.ofNat_toNat, List.append_eq]
    rw [ih (c :: cur) (fun x hx => h x (List.mem_cons_of_mem c hx))]
    simp

/-- Splitting the concatenation of NUL-terminated fields recovers the fields. -/
theorem decode_fields_join (fs : List String)
    (h : ∀ s ∈ fs, ∀ c ∈ s.data, c.toNat ≠ 0) :
    decode_fields ((fs.map (fun s => fieldBytes (.bStr s))).flatten) = fs := by
  induction fs with
  | nil => simp [decode_fields, decode_fields_aux]
  | cons s ss ih =>
    simp only [List.map_cons, List.flatten_cons, fieldBytes]
    have hs : ∀ c ∈ s.data, c.toNat ≠ 0 := h s (List.mem_cons_self s ss)
    unfold decode_fields
    rw [List.append_assoc, List.singleton_append,
      decode_fields_aux_field s.data _ [] hs]
    have ih' := ih (fun t ht c hc => h t (List.mem_cons_of_mem s ht) c hc)
    unfold decode_fields at ih'
    simp only [fieldBytes] at ih'
    rw [ih']
    simp

/-- C1.  Frame round-trip: for every field vector whose string elements avoid
NUL (and are `latin-1` encodable), with a first element that is the decimal
text of the integer `n`, decoding the encoding yields `(n, F[1:])`, and the
encoding is the NUL-terminated rendering of each field prefixed by the 4-byte
big-endian body length. -/
theorem C1_frame_roundtrip (n : Int) (rest : List String) (bs : List Nat)
    (hfields : ∀ s ∈ rest, ∀ c ∈ s.data, c.toNat ≠ 0 ∧ c.toNat < 256)
    (henc : encode_fields (((⟨intDecimal n⟩ : String) :: rest).map .bStr) = some bs) :
    decode_message bs = .ok (some (n, rest)) ∧
    bs = u32be ((((⟨intDecimal n⟩ : String) :: rest).map
          (fun s : String => s.data.map Char.toNat ++ [0])).flatten).length
        ++ (((⟨intDecimal n⟩ : String) :: rest).map
          (fun s : String => s.data.map Char.toNat ++ [0])).flatten := by
  set F : List String := (⟨intDecimal n⟩ : String) :: rest with hF
  have hnonul : ∀ s ∈ F, ∀ c ∈ s.data, c.toNat ≠ 0 := by
    intro s hs c hc
    rcases List.mem_cons.mp hs with h1 | h2
    · subst h1; exact (intDecimal_bytes n c hc).1
    · exact (hfields s h2 c hc).1
  simp only [encode_fields] at henc
  set body := ((F.map BField.bStr).map fieldBytes).flatten with hbody
  have hbodyeq : body = (F.map (fun s : String => s.data.map Char.toNat ++ [0])).flatten := by
    rw [hbody, List.map_map]
    congr 1
  split at henc
  case isFalse => exact absurd henc (by simp)
  case isTrue hlen =>
  have hbs : bs = u32be body.length ++ body := by
    have := henc
    injection this with h
    exact h.symm
  have htake : (u32be body.length ++ body).take 4 = u32be body.length := by
    conv_lhs => rw [← u32be_length body.length]
    exact List.take_left _ _
  have hdrop : (u32be body.length ++ body).drop 4 = body := by
    conv_lhs => rw [← u32be_length body.length]
    exact List.drop_left _ _
  have hfieldsplit : decode_fields body = F := by
    rw [hbody, List.map_map]
    have : (fieldBytes ∘ BField.bStr) = fun s : String => fieldBytes (.bStr s) := rfl
    rw [this]
    exact decode_fields_join F hnonul
  constructor
  · rw [hbs]
    simp only [decode_message]
    have h1 : ¬ ((u32be body.length ++ body).length < 4) := by
      simp [List.length_append, u32be_length]
    rw [if_neg h1, htake, u32beVal_u32be hlen]
    have h2 : ¬ ((u32be body.length ++ body).length < 4 + body.length) := by
      simp [List.length_append, u32be_length]
    rw [if_neg h2, hdrop, List.take_length, hfieldsplit]
    have hdata : (⟨intDecimal n⟩ : String).data = intDecimal n := rfl
    simp only [hF, pyIntStr, hdata, pyIntChars?_intDecimal]
  · rw [hbs, hbodyeq]

/-- Witness for C1 at the concrete vector `["71", "7", ""]`. -/
theorem C1_frame_roundtrip_witness :
    (encode_fields (((⟨intDecimal 71⟩ : String) :: ["7", ""]).map .bStr)
        = some [0, 0, 0, 6, 55, 49, 0, 55, 0, 0]) ∧
    decode_message [0, 0, 0, 6, 55, 49, 0, 55, 0, 0]
        = .ok (some (71, ["7", ""])) :=
  ⟨by decide,
    (C1_frame_roundtrip 71 ["7", ""] [0, 0, 0, 6, 55, 49, 0, 55, 0, 0]
      (by decide) (by decide)).1⟩

theorem ofOptInt_injective : Function.Injective ofOptInt := by
  intro a b h
  cases a <;> cases b <;> simp [ofOptInt] at h <;> simp [h]

/-! ### Split and version-token lemmas -/

theorem pySplit0_sep (a b : List Nat) (ha : 0 ∉ a) :
    pySplit0 (a ++ 0 :: b) = a :: pySplit0 b := by
  induction a with
  | nil => simp [pySplit0]
  | cons c a' ih =>
    have hc : c ≠ 0 := fun hh => ha (by simp [hh])
    have ha' : 0 ∉ a' := fun hm => ha (List.mem_cons_of_mem _ hm)
    simp only [List.cons_append, pySplit0, if_neg hc, List.append_eq]
    rw [ih ha']

theorem splitDD_no_dots : ∀ cs : List Char, '.' ∉ cs → splitDD cs = [cs] := by
  intro cs
  induction cs with
  | nil => intro _; rfl
  | cons c rest ih =>
    intro h
    have hc : c ≠ '.' := fun hh => h (by simp [hh])
    have hrest : '.' ∉ rest := fun hm => h (List.mem_cons_of_mem _ hm)
    rw [splitDD.eq_def]
    split
    next heq => exact absurd heq (by simp)
    next rest' heq =>
      injection heq with h1 _
      exact absurd h1 hc
    next cc x hside heq =>
      injection heq with h1 h2
      subst h1
      subst h2
      rw [ih hrest]

theorem splitDD_sep (a b : List Char) (ha : '.' ∉ a) :
    splitDD (a ++ '.' :: '.' :: b) = a :: splitDD b := by
  induction a with
  | nil => simp [splitDD]
  | cons c a' ih =>
    have hc : c ≠ '.' := fun hh => ha (by simp [hh])
    have ha' : '.' ∉ a' := fun hm => ha (List.mem_cons_of_mem _ hm)
    rw [List.cons_append, splitDD.eq_def]
    split
    next heq => exact absurd heq (by simp)
    next rest' heq =>
      injection heq with h1 _
      exact absurd h1 hc
    next cc x hside heq =>
      injection heq with h1 h2
      subst h1
      subst h2
      rw [ih ha']

theorem stripV_not_v (c : Char) (rest : List Char) (h : c ≠ 'v') :
    stripV (c :: rest) = c :: rest := by
  rw [stripV.eq_def]
  split
  next heq =>
    injection heq with h1 _
    exact absurd h1 h
  next => rfl

theorem intDecimal_char_range (i : Int) :
    ∀ c ∈ intDecimal i, c.toNat = 45 ∨ (48 ≤ c.toNat ∧ c.toNat ≤ 57) := by
  intro c hc
  unfold intDecimal at hc
  split at hc
  · rcases List.mem_cons.mp hc with h1 | h2
    · subst h1; left; decide
    · right; exact natDecimal_digits _ c h2
  · right; exact natDecimal_digits _ c hc

theorem intDecimal_no_dot (i : Int) : '.' ∉ intDecimal i := by
  intro hm
  have h := intDecimal_char_range i '.' hm
  revert h
  decide

theorem intDecimal_head (i : Int) :
    ∃ c cs, intDecimal i = c :: cs
      ∧ (c.toNat = 45 ∨ (48 ≤ c.toNat ∧ c.toNat ≤ 57)) := by
  have hne : intDecimal i ≠ [] := by
    unfold intDecimal
    split
    · simp
    · exact natDecimal_ne_nil _
  rcases h : intDecimal i with _ | ⟨c, cs⟩
  · exact absurd h hne
  · exact ⟨c, cs, rfl, intDecimal_char_range i c (h ▸ List.mem_cons_self c cs)⟩

theorem parseClientVersion_range (useV : Bool) (mn mx : Int) :
    parseClientVersion ((if useV then ['v'] else [])
      ++ intDecimal mn ++ '.' :: '.' :: intDecimal mx) = mx := by
  have hstrip : stripV ((if useV then ['v'] else [])
      ++ intDecimal mn ++ '.' :: '.' :: intDecimal mx)
      = intDecimal mn ++ '.' :: '.' :: intDecimal mx := by
    cases useV
    · show stripV (intDecimal mn ++ '.' :: '.' :: intDecimal mx)
        = intDecimal mn ++ '.' :: '.' :: intDecimal mx
      obtain ⟨c, cs, hcons, hr⟩ := intDecimal_head mn
      have hcv : c ≠ 'v' := by
        intro hh
        subst hh
        revert hr
        decide
      calc stripV (intDecimal mn ++ '.' :: '.' :: intDecimal mx)
          = stripV (c :: (cs ++ '.' :: '.' :: intDecimal mx)) := by rw [hcons]; rfl
        _ = c :: (cs ++ '.' :: '.' :: intDecimal mx) := stripV_not_v _ _ hcv
        _ = intDecimal mn ++ '.' :: '.' :: intDecimal mx := by rw [hcons]; rfl
    · show stripV ('v' :: (intDecimal mn ++ '.' :: '.' :: intDecimal mx))
        = intDecimal mn ++ '.' :: '.' :: intDecimal mx
      rfl
  unfold parseClientVersion
  rw [hstrip, splitDD_sep _ _ (intDecimal_no_dot mn),
    splitDD_no_dots _ (intDecimal_no_dot mx)]
  show (pyIntChars? (intDecimal mx)).getD 100 = mx
  rw [pyIntChars?_intDecimal]
  rfl

theorem parseClientVersion_fail (tok : List Char)
    (hdot : '.' ∉ stripV tok) (hfail : pyIntChars? (stripV tok) = none) :
    parseClientVersion tok = 100 := by
  unfold parseClientVersion
  rw [splitDD_no_dots _ hdot]
  show (pyIntChars? (stripV tok)).getD 100 = 100
  rw [hfail]
  rfl

/-! ### Handshake lemmas -/

theorem handshake_api (s : Session) (tok : List Char)
    (hnz : ∀ c ∈ tok, c.toNat ≠ 0) :
    handshake s ([65, 80, 73, 0] ++ tok.map Char.toNat ++ [0])
      = ({ s with client_version := some (parseClientVersion tok), api_connected := true },
        some (encode_fields [.bInt s.server_version, .bStr s.connection_time])) := by
  have hnz' : (0 : Nat) ∉ tok.map Char.toNat := by
    intro hm
    obtain ⟨c, hc, hcv⟩ := List.mem_map.mp hm
    exact hnz c hc hcv
  have hsplit : pySplit0 ([65, 80, 73, 0] ++ tok.map Char.toNat ++ [0])
      = [65, 80, 73] :: (tok.map Char.toNat) :: [[]] := by
    have h1 : ([65, 80, 73, 0] : List Nat) ++ tok.map Char.toNat ++ [0]
        = [65, 80, 73] ++ 0 :: (tok.map Char.toNat ++ 0 :: []) := by simp
    rw [h1, pySplit0_sep _ _ (by decide), pySplit0_sep _ _ hnz']
    rfl
  have hback : (tok.map Char.toNat).map Char.ofNat = tok := by
    rw [List.map_map]
    exact List.map_congr_left (fun c _ => Char.ofNat_toNat c) |>.trans (List.map_id tok)
  unfold handshake
  rw [if_neg (by simp)]
  rw [if_pos (by simp [List.isPrefixOf])]
  rw [hsplit]
  simp only [List.getElem?_cons_succ, List.getElem?_cons_zero]
  rw [hback]

theorem server_reply_fields (sv : Int) (ct : String)
    (hct : ∀ c ∈ ct.data, c.toNat ≠ 0)
    (hlen : (intDecimal sv).length + ct.length + 2 < 2 ^ 32) :
    ∃ body : List Nat,
      encode_fields [.bInt sv, .bStr ct] = some (u32be body.length ++ body) ∧
      decode_fields body = [⟨intDecimal sv⟩, ct] ∧
      (decode_fields body).length = 2 := by
  have hdec : decode_fields (fieldBytes (.bInt sv) ++ fieldBytes (.bStr ct))
      = [⟨intDecimal sv⟩, ct] := by
    show decode_fields (((intDecimal sv).map Char.toNat ++ [0])
        ++ (ct.data.map Char.toNat ++ [0])) = _
    have hre : ((intDecimal sv).map Char.toNat ++ [0])
        ++ (ct.data.map Char.toNat ++ [0])
        = (intDecimal sv).map Char.toNat
          ++ 0 :: (ct.data.map Char.toNat ++ 0 :: []) := by simp
    rw [hre]
    unfold decode_fields
    rw [decode_fields_aux_field (intDecimal sv) _ []
        (fun c hc => (intDecimal_bytes sv c hc).1),
      decode_fields_aux_field ct.data _ [] hct]
    rfl
  have hcond : (fieldBytes (.bInt sv) ++ fieldBytes (.bStr ct)).length < 2 ^ 32 := by
    have hld : ct.data.length = ct.length := rfl
    simp [fieldBytes, List.length_append]
    omega
  refine ⟨fieldBytes (.bInt sv) ++ fieldBytes (.bStr ct), ?_, hdec, by rw [hdec]; rfl⟩
  simp only [encode_fields, List.map_cons, List.map_nil, List.flatten_cons,
    List.flatten_nil, List.append_nil]
  rw [if_pos hcond]

/-- C2.  Handshake acceptance: a handshake read `API\0` followed by a
NUL-free version token and a terminating NUL leaves the session connected
with the parsed client version; a `min..max` token (optionally prefixed by
`v`) sets the client version to `max`; an unparseable plain token defaults
it to 100; and the reply frame encodes exactly two fields — server version
and connection time — with no message-kind identifier. -/
theorem C2_handshake_acceptance (s : Session) (tok : List Char)
    (hnz : ∀ c ∈ tok, c.toNat ≠ 0)
    (hct : ∀ c ∈ s.connection_time.data, c.toNat ≠ 0)
    (hlen : (intDecimal s.server_version).length + s.connection_time.length + 2
      < 2 ^ 32) :
    (handshake s ([65, 80, 73, 0] ++ tok.map Char.toNat ++ [0])).1.api_connected
      = true ∧
    (handshake s ([65, 80, 73, 0] ++ tok.map Char.toNat ++ [0])).1.client_version
      = some (parseClientVersion tok) ∧
    (∀ (useV : Bool) (mn mx : Int),
      tok = (if useV then ['v'] else [])
          ++ intDecimal mn ++ '.' :: '.' :: intDecimal mx →
      (handshake s ([65, 80, 73, 0] ++ tok.map Char.toNat ++ [0])).1.client_version
        = some mx) ∧
    ('.' ∉ stripV tok → pyIntChars? (stripV tok) = none →
      (handshake s ([65, 80, 73, 0] ++ tok.map Char.toNat ++ [0])).1.client_version
        = some 100) ∧
    (∃ body : List Nat,
      (handshake s ([65, 80, 73, 0] ++ tok.map Char.toNat ++ [0])).2
        = some (some (u32be body.length ++ body)) ∧
      decode_fields body = [⟨intDecimal s.server_version⟩, s.connection_time] ∧
      (decode_fields body).length = 2) := by
  have h := handshake_api s tok hnz
  rw [h]
  obtain ⟨body, he, hd, hl⟩ :=
    server_reply_fields s.server_version s.connection_time hct hlen
  refine ⟨rfl, rfl, ?_, ?_, body, ?_, hd, hl⟩
  · intro useV mn mx htok
    subst htok
    show some (parseClientVersion _) = some mx
    rw [parseClientVersion_range]
  · intro h1 h2
    show some (parseClientVersion tok) = some 100
    rw [parseClientVersion_fail tok h1 h2]
  · simp [he]

/-- Witness for C2 at the token `v100..176` on a fresh session. -/
theorem C2_handshake_acceptance_witness :
    (handshake sW ([65, 80, 73, 0]
        ++ ('v' :: (intDecimal 100 ++ '.' :: '.' :: intDecimal 176)).map Char.toNat
        ++ [0])).1.api_connected = true ∧
    (handshake sW ([65, 80, 73, 0]
        ++ ('v' :: (intDecimal 100 ++ '.' :: '.' :: intDecimal 176)).map Char.toNat
        ++ [0])).1.client_version = some 176 := by
  have h := C2_handshake_acceptance sW
    ('v' :: (intDecimal 100 ++ '.' :: '.' :: intDecimal 176))
    (by decide) (by decide) (by decide)
  exact ⟨h.1, h.2.2.1 true 100 176 (by decide)⟩

/-- C10.  A non-empty initial read that does not start with `API\0` is not
treated as a handshake failure: the session still sends the two-field
server-version reply, becomes connected, and proceeds with its client
version left unset. -/
theorem C10_handshake_malformed (cfg : Config) (cid : Int) (now : ℚ)
    (ct : String) (data : List Nat) (hne : data ≠ [])
    (hnapi : ([65, 80, 73, 0] : List Nat).isPrefixOf data = false) :
    handshake (mkSession cfg cid now ct) data
      = ({ mkSession cfg cid now ct with api_connected := true },
        some (encode_fields [.bInt cfg.protocol_version, .bStr ct])) ∧
    (handshake (mkSession cfg cid now ct) data).1.client_version = none := by
  have h1 : handshake (mkSession cfg cid now ct) data
      = ({ mkSession cfg cid now ct with api_connected := true },
        some (encode_fields [.bInt cfg.protocol_version, .bStr ct])) := by
    unfold handshake
    rw [if_neg hne]
    simp only [hnapi, Bool.false_eq_true, if_false]
    rfl
  exact ⟨h1, by rw [h1]; rfl⟩

/-- Witness for C10 at the single byte `X`. -/
theorem C10_handshake_malformed_witness :
    (handshake (mkSession cfgW 3 0 "20251012 10:00:00") [88]).1.api_connected
      = true ∧
    (handshake (mkSession cfgW 3 0 "20251012 10:00:00") [88]).1.client_version
      = none := by
  have h := C10_handshake_malformed cfgW 3 0 "20251012 10:00:00" [88]
    (by decide) (by decide)
  exact ⟨by rw [h.1], h.2⟩

/-! ### Subscription-dict lemmas -/

theorem dictFind?_dictInsert_self (k : Option Int) (v : Subscription)
    (l : List (Option Int × Subscription)) :
    dictFind? k (dictInsert k v l) = some v := by
  induction l with
  | nil => simp [dictInsert, dictFind?]
  | cons p rest ih =>
    by_cases h : p.1 = k
    · simp [dictInsert, dictFind?, h]
    · rcases p with ⟨k', v'⟩
      simp only at h
      simp [dictInsert, dictFind?, h, ih]

theorem dictFind?_dictErase_self (k : Option Int)
    (l : List (Option Int × Subscription)) :
    dictFind? k (dictErase k l) = none := by
  induction l with
  | nil => rfl
  | cons p rest ih =>
    rcases p with ⟨k', v'⟩
    by_cases h : k' = k
    · simpa [dictErase, h] using ih
    · simpa [dictErase, dictFind?, h] using ih

theorem dictFind?_dictErase_ne (k k' : Option Int)
    (l : List (Option Int × Subscription)) (h : k' ≠ k) :
    dictFind? k' (dictErase k l) = dictFind? k' l := by
  induction l with
  | nil => rfl
  | cons p rest ih =>
    rcases p with ⟨k0, v0⟩
    by_cases h0 : k0 = k
    · subst h0
      simpa [dictErase, dictFind?, Ne.symm h] using ih
    · by_cases h1 : k0 = k'
      · subst h1
        simp [dictErase, dictFind?, List.filter_cons, h]
      · simpa [dictErase, dictFind?, h0, h1] using ih

theorem mem_dictErase_key (k : Option Int) (p : Option Int × Subscription)
    (l : List (Option Int × Subscription)) (h : p ∈ dictErase k l) :
    p.1 ≠ k := by
  have := List.mem_filter.mp h
  simpa using this.2

theorem dictFind?_none_key (k : Option Int)
    (l : List (Option Int × Subscription)) (hfind : dictFind? k l = none) :
    ∀ p ∈ l, p.1 ≠ k := by
  induction l with
  | nil => intro p hp; simp at hp
  | cons q rest ih =>
    intro p hp
    rcases q with ⟨k0, v0⟩
    by_cases h0 : k0 = k
    · simp [dictFind?, h0] at hfind
    · rcases List.mem_cons.mp hp with h1 | h2
      · subst h1; simpa using h0
      · exact ih (by simpa [dictFind?, h0] using hfind) p h2

theorem mem_optMsg {α : Type} {m : Msg} {o : Option α} {f : α → Msg}
    (h : m ∈ optMsg o f) : ∃ x, o = some x ∧ m = f x := by
  cases o with
  | none => simp [optMsg] at h
  | some x =>
    simp [optMsg] at h
    exact ⟨x, rfl, h⟩

theorem mem_tickMsgs_req (m : Msg) (k : Option Int) (data : TickData)
    (h : m ∈ tickMsgs k data) : m[1]? = some (ofOptInt k) := by
  unfold tickMsgs at h
  simp only [List.mem_append] at h
  rcases h with ((((h | h) | h) | h) | h) | h <;>
    obtain ⟨x, _, rfl⟩ := mem_optMsg h <;> rfl

theorem mem_send_market_data {s : Session} {symbol : String} {data : TickData}
    {m : Msg} (h : m ∈ send_market_data s symbol data) :
    ∃ p ∈ s.market_data_subscriptions, m ∈ tickMsgs p.1 data := by
  unfold send_market_data at h
  rw [List.mem_flatten] at h
  obtain ⟨l, hl, hm⟩ := h
  rw [List.mem_map] at hl
  obtain ⟨p, hp, rfl⟩ := hl
  by_cases hsym : p.2.contract.symbol = symbol
  · rw [if_pos hsym] at hm
    exact ⟨p, hp, hm⟩
  · rw [if_neg hsym] at hm
    simp at hm

/-- C5.  A REQ_MKT_DATA request with `req_id = r` stores its subscription
descriptor under key `r` and emits the fixed initial burst, in order:
`TICK_PRICE(r,1,99.99)`, `TICK_PRICE(r,2,100.01)`, `TICK_PRICE(r,4,100.00)`,
`TICK_SIZE(r,0,100)`, `TICK_SIZE(r,3,100)`, `TICK_SIZE(r,5,50)`,
`TICK_SIZE(r,8,1000000)`. -/
theorem C5_market_data_initial_burst (s : Session) (d : ReqMktData) (r : Int)
    (hreq : d.req_id = some r) :
    dictFind? (some r) (handle_req_market_data s d).1.market_data_subscriptions
      = some ⟨d.contract, d.generic_tick_list, d.snapshot, d.regulatory_snapshot⟩ ∧
    (handle_req_market_data s d).2 =
      [make_message OutgoingMessageIds.TICK_PRICE
        [.fInt r, .fInt 1, .fRat (9999 / 100), .fBool true, .fBool false],
       make_message OutgoingMessageIds.TICK_PRICE
        [.fInt r, .fInt 2, .fRat (10001 / 100), .fBool true, .fBool false],
       make_message OutgoingMessageIds.TICK_PRICE
        [.fInt r, .fInt 4, .fRat 100, .fBool true, .fBool false],
       make_message OutgoingMessageIds.TICK_SIZE [.fInt r, .fInt 0, .fInt 100],
       make_message OutgoingMessageIds.TICK_SIZE [.fInt r, .fInt 3, .fInt 100],
       make_message OutgoingMessageIds.TICK_SIZE [.fInt r, .fInt 5, .fInt 50],
       make_message OutgoingMessageIds.TICK_SIZE
        [.fInt r, .fInt 8, .fInt 1000000]] := by
  constructor
  · simp only [handle_req_market_data, hreq]
    exact dictFind?_dictInsert_self _ _ _
  · simp only [handle_req_market_data, send_initial_market_data, tick_price,
      tick_size, make_message, ofOptInt, hreq]
    norm_num

/-- Witness for C5 at `req_id = 100` on a fresh session. -/
theorem C5_market_data_initial_burst_witness :
    dictFind? (some 100)
        (handle_req_market_data sW reqMktW).1.market_data_subscriptions
      = some ⟨reqMktW.contract, reqMktW.generic_tick_list, reqMktW.snapshot,
          reqMktW.regulatory_snapshot⟩ ∧
    (handle_req_market_data sW reqMktW).2 =
      [make_message OutgoingMessageIds.TICK_PRICE
        [.fInt 100, .fInt 1, .fRat (9999 / 100), .fBool true, .fBool false],
       make_message OutgoingMessageIds.TICK_PRICE
        [.fInt 100, .fInt 2, .fRat (10001 / 100), .fBool true, .fBool false],
       make_message OutgoingMessageIds.TICK_PRICE
        [.fInt 100, .fInt 4, .fRat 100, .fBool true, .fBool false],
       make_message OutgoingMessageIds.TICK_SIZE [.fInt 100, .fInt 0, .fInt 100],
       make_message OutgoingMessageIds.TICK_SIZE [.fInt 100, .fInt 3, .fInt 100],
       make_message OutgoingMessageIds.TICK_SIZE [.fInt 100, .fInt 5, .fInt 50],
       make_message OutgoingMessageIds.TICK_SIZE
        [.fInt 100, .fInt 8, .fInt 1000000]] :=
  C5_market_data_initial_burst sW reqMktW 100 (by decide)

/-- C8.  Cancelling market data for `req_id = r` removes exactly that key
(no-op when absent), leaves every other subscription entry and every other
session field unchanged, emits nothing, and afterwards `send_market_data`
never emits a frame carrying `r` on this session. -/
theorem C8_cancel_market_data (s : Session) (r : Option Int) :
    dictFind? r
        (handle_cancel_market_data s ⟨r⟩).1.market_data_subscriptions = none ∧
    (handle_cancel_market_data s ⟨r⟩).2 = [] ∧
    (dictFind? r s.market_data_subscriptions = none →
      handle_cancel_market_data s ⟨r⟩ = (s, [])) ∧
    (∀ r' : Option Int, r' ≠ r →
      dictFind? r' (handle_cancel_market_data s ⟨r⟩).1.market_data_subscriptions
        = dictFind? r' s.market_data_subscriptions) ∧
    (handle_cancel_market_data s ⟨r⟩).1
      = { s with market_data_subscriptions :=
          (handle_cancel_market_data s ⟨r⟩).1.market_data_subscriptions } ∧
    (∀ (symbol : String) (data : TickData) (m : Msg),
      m ∈ send_market_data (handle_cancel_market_data s ⟨r⟩).1 symbol data →
      m[1]? ≠ some (ofOptInt r)) := by
  have hkeys : ∀ p ∈ (handle_cancel_market_data s ⟨r⟩).1.market_data_subscriptions,
      p.1 ≠ r := by
    unfold handle_cancel_market_data
    split
    · intro p hp
      exact mem_dictErase_key r p _ hp
    next hnot =>
      intro p hp
      have hfind : dictFind? r s.market_data_subscriptions = none := by
        rcases hh : dictFind? r s.market_data_subscriptions with _ | v
        · rfl
        · rw [hh] at hnot; simp at hnot
      exact dictFind?_none_key r _ hfind p hp
  refine ⟨?_, ?_, ?_, ?_, ?_, ?_⟩
  · unfold handle_cancel_market_data
    split
    · exact dictFind?_dictErase_self r _
    next hnot =>
      rcases hh : dictFind? r s.market_data_subscriptions with _ | v
      · rfl
      · rw [hh] at hnot; simp at hnot
  · unfold handle_cancel_market_data
    split <;> rfl
  · intro hfind
    unfold handle_cancel_market_data
    rw [if_neg (by rw [hfind]; simp)]
  · intro r' hne
    unfold handle_cancel_market_data
    split
    · exact dictFind?_dictErase_ne r r' _ hne
    · rfl
  · unfold handle_cancel_market_data
    split <;> rfl
  · intro symbol data m hm
    obtain ⟨p, hp, hmt⟩ := mem_send_market_data hm
    rw [mem_tickMsgs_req m p.1 data hmt]
    intro hcontra
    exact hkeys p hp (ofOptInt_injective (by injection hcontra))

/-- Witness for C8: cancelling `req_id = 10` on a session subscribed with
req ids 10 and 20. -/
theorem C8_cancel_market_data_witness :
    dictFind? (some 10)
        (handle_cancel_market_data sSubW ⟨some 10⟩).1.market_data_subscriptions
      = none ∧
    (handle_cancel_market_data sSubW ⟨some 10⟩).2 = [] ∧
    dictFind? (some 20)
        (handle_cancel_market_data sSubW ⟨some 10⟩).1.market_data_subscriptions
      = dictFind? (some 20) sSubW.market_data_subscriptions ∧
    (∀ m : Msg, m ∈ send_market_data (handle_cancel_market_data sSubW ⟨some 10⟩).1
        "NVDA" ticksW → m[1]? ≠ some (ofOptInt (some 10))) := by
  have h := C8_cancel_market_data sSubW (some 10)
  exact ⟨h.1, h.2.1, h.2.2.2.1 (some 20) (by decide),
    fun m hm => h.2.2.2.2.2 "NVDA" ticksW m hm⟩

/-! ### Ingress unfolding lemmas -/

theorem process_message_eq (cfg : Config) (db : Database) (clock : Clock)
    (srv : Int) (s : Session) (now : ℚ) (data : List Nat) :
    process_message cfg db clock srv s now data
      = if (check_rate_limit cfg s now).2
        then handle_decoded cfg db clock srv (check_rate_limit cfg s now).1 data
        else ((check_rate_limit cfg s now).1,
          [error_message (-1) ErrorCodes.MAX_RATE_EXCEEDED
            "Max message rate exceeded"]) := by
  unfold process_message
  rcases h : check_rate_limit cfg s now with ⟨s1, ok⟩
  rfl

theorem process_all_cons (cfg : Config) (db : Database) (clock : Clock)
    (srv : Int) (s : Session) (now : ℚ) (data : List Nat)
    (rest : List (ℚ × List Nat)) :
    process_all cfg db clock srv s ((now, data) :: rest)
      = ((process_all cfg db clock srv
            (process_message cfg db clock srv s now data).1 rest).1,
        (process_message cfg db clock srv s now data).2
          ++ (process_all cfg db clock srv
            (process_message cfg db clock srv s now data).1 rest).2) := by
  conv_lhs => rw [process_all]

/-- C6.  An inbound frame whose kind is absent from the dispatch table gets
exactly one `ERR_MSG(-1, UNKNOWN_ID, "Unknown message ID: K")`, the session
state is untouched, and the ingress loop continues with the following
frames. -/
theorem C6_unknown_kind (cfg : Config) (db : Database) (clock : Clock)
    (srv : Int) (s : Session) (msg_id : Int) (fields : List String)
    (h : msg_id ∉ handledKinds) :
    routeMessage cfg db clock srv s msg_id fields
      = .ok (s, [error_message (-1) ErrorCodes.UNKNOWN_ID
          ("Unknown message ID: " ++ intStr msg_id)]) ∧
    (∀ (now : ℚ) (data : List Nat) (rest : List (ℚ × List Nat)),
      decode_message data = .ok (some (msg_id, fields)) →
      (check_rate_limit cfg s now).2 = true →
      process_all cfg db clock srv s ((now, data) :: rest)
        = ((process_all cfg db clock srv (check_rate_limit cfg s now).1 rest).1,
          error_message (-1) ErrorCodes.UNKNOWN_ID
              ("Unknown message ID: " ++ intStr msg_id)
            :: (process_all cfg db clock srv
                (check_rate_limit cfg s now).1 rest).2)) := by
  have hroute : ∀ s' : Session, routeMessage cfg db clock srv s' msg_id fields
      = .ok (s', [error_message (-1) ErrorCodes.UNKNOWN_ID
          ("Unknown message ID: " ++ intStr msg_id)]) := by
    intro s'
    simp only [handledKinds, List.mem_cons, List.not_mem_nil, or_false,
      not_or] at h
    obtain ⟨h1, h2, h3, h4, h5, h6, h7, h8, h9, h10, h11, h12, h13, h14, h15⟩ := h
    unfold routeMessage
    rw [if_neg h1, if_neg h2, if_neg h3, if_neg h4, if_neg h5, if_neg h6,
      if_neg h7, if_neg h8, if_neg h9, if_neg h10, if_neg h11, if_neg h12,
      if_neg h13, if_neg h14, if_neg h15]
  refine ⟨hroute s, ?_⟩
  intro now data rest hdec hok
  rw [process_all_cons, process_message_eq, hok]
  simp only [if_true]
  unfold handle_decoded
  rw [hdec]
  dsimp only
  rw [hroute ((check_rate_limit cfg s now).1)]
  rfl

/-- Witness for C6 at the unknown kind 9999. -/
theorem C6_unknown_kind_witness :
    routeMessage cfgW dbW clockW 1001 sW 9999 []
      = .ok (sW, [error_message (-1) ErrorCodes.UNKNOWN_ID
          ("Unknown message ID: " ++ intStr 9999)]) :=
  (C6_unknown_kind cfgW dbW clockW 1001 sW 9999 [] (by decide)).1

/-! ### Account-subscription lemmas -/

theorem mem_setAdd_self (a : String) (l : List String) : a ∈ setAdd a l := by
  unfold setAdd
  split
  · assumption
  · exact List.mem_cons_self a l

theorem not_mem_setDiscard_self (a : String) (l : List String) :
    a ∉ setDiscard a l := by
  intro hm
  have := List.mem_filter.mp hm
  simp at this

theorem head?_send_portfolio_position (a : String) (p : DbPosition) :
    (send_portfolio_position a p).head?
      = some (.fInt OutgoingMessageIds.PORTFOLIO_VALUE) := rfl

/-- The resolved form of `_handle_req_account_data`: once the account code
resolves to `acct`, subscribe adds and bursts, unsubscribe discards and
sends only the end marker. -/
theorem handle_req_account_data_eq (cfg : Config) (db : Database)
    (clock : Clock) (s : Session) (sub : Bool) (code acct : String)
    (hresolve : (if code = "" then firstAccount cfg else Except.ok code)
      = Except.ok acct) :
    handle_req_account_data cfg db clock s ⟨sub, code⟩
      = if sub then
          .ok ({ s with account_subscriptions := setAdd acct s.account_subscriptions },
            send_account_updates db clock acct)
        else
          .ok ({ s with account_subscriptions := setDiscard acct s.account_subscriptions },
            [account_download_end acct]) := by
  unfold handle_req_account_data
  by_cases hcode : code = ""
  · rw [if_pos hcode] at hresolve
    rw [if_pos hcode, hresolve]
    rfl
  · rw [if_neg hcode] at hresolve
    injection hresolve with h'
    subst h'
    rw [if_neg hcode]
    rfl

/-- C4.  REQ_ACCT_DATA with subscribe=1 adds the resolved account to the
subscription set and emits, in order, the four `ACCT_VALUE` frames with keys
NetLiquidation, TotalCashValue, UnrealizedPnL, RealizedPnL, then
`ACCT_UPDATE_TIME`, then one `PORTFOLIO_VALUE` per open position, then
exactly one `ACCT_DOWNLOAD_END`; with subscribe=0 the account is removed and
only `ACCT_DOWNLOAD_END` is emitted. -/
theorem C4_account_data (cfg : Config) (db : Database) (clock : Clock)
    (s : Session) (code acct0 acct : String) (rest : List String)
    (ad : AccountSummary)
    (hacc : cfg.accounts = acct0 :: rest)
    (hacct : acct = if code = "" then acct0 else code)
    (hsum : db.get_account_summary acct = some ad) :
    handle_req_account_data cfg db clock s ⟨true, code⟩
      = .ok ({ s with account_subscriptions := setAdd acct s.account_subscriptions },
        [account_value "NetLiquidation" (pyStr ad.net_liquidation)
          ad.base_currency acct,
         account_value "TotalCashValue" (pyStr ad.cash_balance)
          ad.base_currency acct,
         account_value "UnrealizedPnL" (pyStr ad.unrealized_pnl)
          ad.base_currency acct,
         account_value "RealizedPnL" (pyStr ad.realized_pnl)
          ad.base_currency acct,
         account_update_time clock.timeStr]
        ++ (db.get_positions acct).map (send_portfolio_position acct)
        ++ [account_download_end acct]) ∧
    (∀ (s' : Session) (msgs : List Msg),
      handle_req_account_data cfg db clock s ⟨true, code⟩ = .ok (s', msgs) →
      acct ∈ s'.account_subscriptions ∧
      msgs.map (fun m => m.head?)
        = [some (.fInt OutgoingMessageIds.ACCT_VALUE),
           some (.fInt OutgoingMessageIds.ACCT_VALUE),
           some (.fInt OutgoingMessageIds.ACCT_VALUE),
           some (.fInt OutgoingMessageIds.ACCT_VALUE),
           some (.fInt OutgoingMessageIds.ACCT_UPDATE_TIME)]
          ++ (db.get_positions acct).map
              (fun _ => some (.fInt OutgoingMessageIds.PORTFOLIO_VALUE))
          ++ [some (.fInt OutgoingMessageIds.ACCT_DOWNLOAD_END)] ∧
      msgs.countP
          (fun m => m.head? == some (.fInt OutgoingMessageIds.ACCT_DOWNLOAD_END))
        = 1) ∧
    handle_req_account_data cfg db clock s ⟨false, code⟩
      = .ok ({ s with account_subscriptions :=
            setDiscard acct s.account_subscriptions },
        [account_download_end acct]) ∧
    acct ∉ setDiscard acct s.account_subscriptions := by
  have hresolve : (if code = "" then firstAccount cfg else Except.ok code)
      = Except.ok acct := by
    by_cases hcode : code = ""
    · simp [hcode, firstAccount, hacc, hacct]
    · simp [hcode, hacct]
  have h1 : handle_req_account_data cfg db clock s ⟨true, code⟩
      = .ok ({ s with account_subscriptions := setAdd acct s.account_subscriptions },
        [account_value "NetLiquidation" (pyStr ad.net_liquidation)
          ad.base_currency acct,
         account_value "TotalCashValue" (pyStr ad.cash_balance)
          ad.base_currency acct,
         account_value "UnrealizedPnL" (pyStr ad.unrealized_pnl)
          ad.base_currency acct,
         account_value "RealizedPnL" (pyStr ad.realized_pnl)
          ad.base_currency acct,
         account_update_time clock.timeStr]
        ++ (db.get_positions acct).map (send_portfolio_position acct)
        ++ [account_download_end acct]) := by
    rw [handle_req_account_data_eq cfg db clock s true code acct hresolve,
      if_pos rfl]
    unfold send_account_updates
    rw [hsum]
  have h3 : handle_req_account_data cfg db clock s ⟨false, code⟩
      = .ok ({ s with account_subscriptions :=
            setDiscard acct s.account_subscriptions },
        [account_download_end acct]) := by
    rw [handle_req_account_data_eq cfg db clock s false code acct hresolve,
      if_neg (by simp)]
  refine ⟨h1, ?_, h3, not_mem_setDiscard_self acct _⟩
  intro s' msgs heq
  rw [h1] at heq
  injection heq with heq'
  injection heq' with hs hm
  subst hs
  subst hm
  refine ⟨mem_setAdd_self acct _, ?_, ?_⟩
  · simp only [List.map_append, List.map_cons, List.map_nil, List.map_map]
    have hcomp : ∀ p ∈ db.get_positions acct,
        ((fun m => List.head? m) ∘ send_portfolio_position acct) p
          = some (.fInt OutgoingMessageIds.PORTFOLIO_VALUE) :=
      fun p _ => head?_send_portfolio_position acct p
    rw [List.map_congr_left hcomp]
    rfl
  · simp only [List.countP_append, List.countP_cons, List.countP_nil,
      List.countP_map]
    norm_num [account_value, account_update_time, account_download_end,
      make_message, Function.comp, send_portfolio_position, portfolio_value]
    exact ⟨⟨by decide, by decide⟩, fun a _ => by decide⟩

/-- Witness for C4 at the empty account code on the configured account. -/
theorem C4_account_data_witness :
    handle_req_account_data cfgW dbW clockW sW ⟨true, ""⟩
      = .ok ({ sW with account_subscriptions := setAdd "DU000001" sW.account_subscriptions },
        [account_value "NetLiquidation" (pyStr sumW.net_liquidation)
          sumW.base_currency "DU000001",
         account_value "TotalCashValue" (pyStr sumW.cash_balance)
          sumW.base_currency "DU000001",
         account_value "UnrealizedPnL" (pyStr sumW.unrealized_pnl)
          sumW.base_currency "DU000001",
         account_value "RealizedPnL" (pyStr sumW.realized_pnl)
          sumW.base_currency "DU000001",
         account_update_time clockW.timeStr]
        ++ (dbW.get_positions "DU000001").map (send_portfolio_position "DU000001")
        ++ [account_download_end "DU000001"]) ∧
    handle_req_account_data cfgW dbW clockW sW ⟨false, ""⟩
      = .ok ({ sW with account_subscriptions := setDiscard "DU000001" sW.account_subscriptions },
        [account_download_end "DU000001"]) := by
  have h := C4_account_data cfgW dbW clockW sW "" "DU000001" "DU000001" [] sumW
    (by decide) (by decide) (by decide)
  exact ⟨h.1, h.2.2.1⟩

/-! ### Listener lemmas -/

theorem handle_client_reject (max_clients : Nat) (st : ServerState)
    (h : max_clients ≤ st.clients.length) :
    handle_client max_clients st
      = ({ st with next_client_id := st.next_client_id + 1 },
        .rejected, []) := by
  unfold handle_client
  rw [if_pos h]

theorem handle_client_accept (max_clients : Nat) (st : ServerState)
    (h : ¬ max_clients ≤ st.clients.length) :
    handle_client max_clients st
      = (⟨st.clients ++ [st.next_client_id], st.next_client_id + 1⟩,
        .accepted st.next_client_id, []) := by
  unfold handle_client
  rw [if_neg h]

theorem server_step_length (max_clients : Nat) (st : ServerState)
    (e : ServerEvent) (h : st.clients.length ≤ max_clients) :
    (server_step max_clients st e).clients.length ≤ max_clients := by
  cases e with
  | accept =>
    by_cases hcap : max_clients ≤ st.clients.length
    · simp [server_step, handle_client_reject max_clients st hcap]
      exact h
    · simp [server_step, handle_client_accept max_clients st hcap]
      omega
  | disconnect cid =>
    calc (server_step max_clients st (.disconnect cid)).clients.length
        ≤ st.clients.length := List.length_filter_le _ _
      _ ≤ max_clients := h

theorem accepted_ids_chain (max_clients : Nat) :
    ∀ (evs : List ServerEvent) (st : ServerState),
      List.Chain' (· < ·) (accepted_ids max_clients st evs) ∧
      ∀ i ∈ accepted_ids max_clients st evs, st.next_client_id ≤ i := by
  intro evs
  induction evs with
  | nil =>
    intro st
    exact ⟨List.chain'_nil, by intro i hi; simp [accepted_ids] at hi⟩
  | cons e evs ih =>
    intro st
    cases e with
    | accept =>
      by_cases hcap : max_clients ≤ st.clients.length
      · have hredu : accepted_ids max_clients st (.accept :: evs)
            = accepted_ids max_clients
                { st with next_client_id := st.next_client_id + 1 } evs := by
          conv_lhs => rw [accepted_ids]
          rw [handle_client_reject max_clients st hcap]
        rw [hredu]
        obtain ⟨hch, hlb⟩ := ih { st with next_client_id := st.next_client_id + 1 }
        exact ⟨hch, fun i hi => by have := hlb i hi; simp at this; omega⟩
      · have hredu : accepted_ids max_clients st (.accept :: evs)
            = st.next_client_id
              :: accepted_ids max_clients
                  ⟨st.clients ++ [st.next_client_id], st.next_client_id + 1⟩ evs := by
          conv_lhs => rw [accepted_ids]
          rw [handle_client_accept max_clients st hcap]
        rw [hredu]
        obtain ⟨hch, hlb⟩ :=
          ih ⟨st.clients ++ [st.next_client_id], st.next_client_id + 1⟩
        constructor
        · rw [List.chain'_cons']
          refine ⟨?_, hch⟩
          intro b hb
          have hbmem := List.mem_of_mem_head? hb
          have := hlb b hbmem
          simp at this
          omega
        · intro i hi
          rcases List.mem_cons.mp hi with h1 | h2
          · omega
          · have := hlb i h2
            simp at this
            omega
    | disconnect cid =>
      have hredu : accepted_ids max_clients st (.disconnect cid :: evs)
          = accepted_ids max_clients (remove_client cid st) evs := by
        conv_lhs => rw [accepted_ids]
      rw [hredu]
      obtain ⟨hch, hlb⟩ := ih (remove_client cid st)
      exact ⟨hch, fun i hi => hlb i hi⟩

/-- C9.  The registry never exceeds `max_clients`: accepts at the cap are
closed immediately with no bytes written and no registration, while
registered connections receive strictly increasing client ids starting at 1
(the first accept from the initial state is assigned id 1). -/
theorem C9_max_clients (max_clients : Nat) :
    (∀ evs : List ServerEvent,
      (run_server max_clients initial_server evs).clients.length ≤ max_clients) ∧
    (∀ st : ServerState, max_clients ≤ st.clients.length →
      handle_client max_clients st
        = ({ st with next_client_id := st.next_client_id + 1 }, .rejected, [])) ∧
    (∀ evs : List ServerEvent,
      List.Chain' (· < ·) (accepted_ids max_clients initial_server evs) ∧
      ∀ i ∈ accepted_ids max_clients initial_server evs, 1 ≤ i) ∧
    (1 ≤ max_clients →
      handle_client max_clients initial_server
        = (⟨[1], 2⟩, .accepted 1, [])) := by
  refine ⟨?_, handle_client_reject max_clients, ?_, ?_⟩
  · have key : ∀ (evs : List ServerEvent) (st : ServerState),
        st.clients.length ≤ max_clients →
        (run_server max_clients st evs).clients.length ≤ max_clients := by
      intro evs
      induction evs with
      | nil => intro st h; exact h
      | cons e evs ih =>
        intro st h
        exact ih _ (server_step_length max_clients st e h)
    intro evs
    exact key evs initial_server (by simp [initial_server])
  · intro evs
    exact accepted_ids_chain max_clients evs initial_server
  · intro hmax
    have h : ¬ max_clients ≤ initial_server.clients.length := by
      simp [initial_server]
      omega
    rw [handle_client_accept max_clients initial_server h]
    rfl

/-- Witness for C9 at `max_clients = 1`. -/
theorem C9_max_clients_witness :
    (run_server 1 initial_server [.accept, .accept]).clients.length ≤ 1 ∧
    handle_client 1 ⟨[7], 5⟩ = (⟨[7], 6⟩, .rejected, []) ∧
    List.Chain' (· < ·) (accepted_ids 1 initial_server [.accept, .accept]) ∧
    handle_client 1 initial_server = (⟨[1], 2⟩, .accepted 1, []) := by
  have h := C9_max_clients 1
  refine ⟨h.1 [.accept, .accept], ?_, (h.2.2.1 [.accept, .accept]).1,
    h.2.2.2 (by decide)⟩
  exact h.2.1 ⟨[7], 5⟩ (by decide)

/-! ### Rate-field preservation: no handler touches the limiter state -/

theorem handle_start_api_rate (cfg : Config) (srv : Int) (s : Session)
    (d : StartApiData) :
    (handle_start_api cfg srv s d).1.message_count = s.message_count ∧
    (handle_start_api cfg srv s d).1.last_message_time = s.last_message_time := by
  cases hd : d.client_id <;>
    simp [handle_start_api, send_next_valid_id, hd]

theorem handle_cancel_market_data_rate (s : Session) (d : CancelMktData) :
    (handle_cancel_market_data s d).1.message_count = s.message_count ∧
    (handle_cancel_market_data s d).1.last_message_time = s.last_message_time := by
  unfold handle_cancel_market_data
  split <;> exact ⟨rfl, rfl⟩

theorem handle_req_account_data_rate (cfg : Config) (db : Database)
    (clock : Clock) (s : Session) (d : ReqAcctData) (s' : Session)
    (out : List Msg)
    (heq : handle_req_account_data cfg db clock s d = .ok (s', out)) :
    s'.message_count = s.message_count ∧
    s'.last_message_time = s.last_message_time := by
  unfold handle_req_account_data at heq
  by_cases hcode : d.account_code = ""
  · rw [if_pos hcode] at heq
    rcases hfa : firstAccount cfg with e | acct <;> rw [hfa] at heq
    · simp [Bind.bind, Except.bind] at heq
    · simp only [Bind.bind, Except.bind] at heq
      split at heq <;>
      · injection heq with h'
        injection h' with hs ho
        subst hs
        exact ⟨rfl, rfl⟩
  · rw [if_neg hcode] at heq
    simp only [Bind.bind, Except.bind] at heq
    split at heq <;>
    · injection heq with h'
      injection h' with hs ho
      subst hs
      exact ⟨rfl, rfl⟩

theorem except_ok_session_eq {e : Except String (Session × List Msg)}
    {s s' : Session} {msgs out : List Msg}
    (he : e = .ok (s, msgs)) (heq : e = .ok (s', out)) : s' = s := by
  rw [he] at heq
  injection heq with h'
  injection h' with hs _
  exact hs.symm

theorem handle_req_positions_rate (cfg : Config) (db : Database) (s : Session)
    (s' : Session) (out : List Msg)
    (heq : handle_req_positions cfg db s = .ok (s', out)) : s' = s := by
  unfold handle_req_positions at heq
  rcases hfa : firstAccount cfg with e | acct <;> rw [hfa] at heq
  · simp [Bind.bind, Except.bind] at heq
  · simp only [Bind.bind, Except.bind] at heq
    injection heq with h'
    injection h' with hs _
    exact hs.symm

theorem handle_place_order_rate (cfg : Config) (s : Session)
    (d : PlaceOrderData) (s' : Session) (out : List Msg)
    (heq : handle_place_order cfg s d = .ok (s', out)) : s' = s := by
  unfold handle_place_order at heq
  rcases hfa : firstAccount cfg with e | acct <;> rw [hfa] at heq
  · simp [Bind.bind, Except.bind] at heq
  · simp only [Bind.bind, Except.bind] at heq
    rcases h1 : send_order_status s d.order_id "PendingSubmit" with e1 | m1 <;>
      rw [h1] at heq
    · simp at heq
    · rcases h2 : send_order_status s d.order_id "Submitted" with e2 | m2 <;>
        rw [h2] at heq
      · simp at heq
      · injection heq with h'
        injection h' with hs _
        exact hs.symm

theorem handle_cancel_order_rate (s : Session) (d : CancelOrderData)
    (s' : Session) (out : List Msg)
    (heq : handle_cancel_order s d = .ok (s', out)) : s' = s := by
  unfold handle_cancel_order at heq
  rcases h1 : send_order_status s d.order_id "PendingCancel" with e1 | m1 <;>
    rw [h1] at heq <;> simp only [Bind.bind, Except.bind] at heq
  · exact absurd heq (by simp)
  · rcases h2 : send_order_status s d.order_id "Cancelled" with e2 | m2 <;>
      rw [h2] at heq
    · simp at heq
    · injection heq with h'
      injection h' with hs _
      exact hs.symm

theorem handle_req_open_orders_rate (cfg : Config) (db : Database)
    (s : Session) (s' : Session) (out : List Msg)
    (heq : handle_req_open_orders cfg db s = .ok (s', out)) : s' = s := by
  unfold handle_req_open_orders at heq
  rcases hfa : firstAccount cfg with e | acct <;> rw [hfa] at heq
  · simp [Bind.bind, Except.bind] at heq
  · simp only [Bind.bind, Except.bind] at heq
    injection heq with h'
    injection h' with hs _
    exact hs.symm

theorem routeMessage_rate (cfg : Config) (db : Database) (clock : Clock)
    (srv : Int) (s : Session) (msg_id : Int) (fields : List String)
    (s' : Session) (out : List Msg)
    (heq : routeMessage cfg db clock srv s msg_id fields = .ok (s', out)) :
    s'.message_count = s.message_count ∧
    s'.last_message_time = s.last_message_time := by
  unfold routeMessage at heq
  by_cases h1 : msg_id = IncomingMessageIds.START_API
  · rw [if_pos h1] at heq
    injection heq with h'
    have hs : s' = (handle_start_api cfg srv s (parse_start_api fields)).1 := by
      rw [h']
    subst hs
    exact handle_start_api_rate cfg srv s _
  rw [if_neg h1] at heq
  by_cases h2 : msg_id = IncomingMessageIds.REQ_IDS
  · rw [if_pos h2] at heq
    injection heq with h'
    have hs : s' = (handle_req_ids srv s).1 := by
      rw [h']
    subst hs
    exact ⟨rfl, rfl⟩
  rw [if_neg h2] at heq
  by_cases h3 : msg_id = IncomingMessageIds.REQ_MANAGED_ACCTS
  · rw [if_pos h3] at heq
    injection heq with h'
    injection h' with hs _
    subst hs
    exact ⟨rfl, rfl⟩
  rw [if_neg h3] at heq
  by_cases h4 : msg_id = IncomingMessageIds.REQ_ACCT_DATA
  · rw [if_pos h4] at heq
    exact handle_req_account_data_rate cfg db clock s _ s' out heq
  rw [if_neg h4] at heq
  by_cases h5 : msg_id = IncomingMessageIds.REQ_POSITIONS
  · rw [if_pos h5] at heq
    rw [handle_req_positions_rate cfg db s s' out heq]
    exact ⟨rfl, rfl⟩
  rw [if_neg h5] at heq
  by_cases h6 : msg_id = IncomingMessageIds.REQ_MKT_DATA
  · rw [if_pos h6] at heq
    injection heq with h'
    have hs : s' = (handle_req_market_data s (parse_req_mkt_data fields)).1 := by
      rw [h']
    subst hs
    exact ⟨rfl, rfl⟩
  rw [if_neg h6] at heq
  by_cases h7 : msg_id = IncomingMessageIds.CANCEL_MKT_DATA
  · rw [if_pos h7] at heq
    injection heq with h'
    have hs : s' = (handle_cancel_market_data s (parse_cancel_mkt_data fields)).1 := by
      rw [h']
    subst hs
    exact handle_cancel_market_data_rate s _
  rw [if_neg h7] at heq
  by_cases h8 : msg_id = IncomingMessageIds.PLACE_ORDER
  · rw [if_pos h8] at heq
    rw [handle_place_order_rate cfg s _ s' out heq]
    exact ⟨rfl, rfl⟩
  rw [if_neg h8] at heq
  by_cases h9 : msg_id = IncomingMessageIds.CANCEL_ORDER
  · rw [if_pos h9] at heq
    rw [handle_cancel_order_rate s _ s' out heq]
    exact ⟨rfl, rfl⟩
  rw [if_neg h9] at heq
  by_cases h10 : msg_id = IncomingMessageIds.REQ_OPEN_ORDERS
  · rw [if_pos h10] at heq
    rw [handle_req_open_orders_rate cfg db s s' out heq]
    exact ⟨rfl, rfl⟩
  rw [if_neg h10] at heq
  by_cases h11 : msg_id = IncomingMessageIds.REQ_CONTRACT_DATA
  · rw [if_pos h11] at heq
    injection heq with h'
    have hs : s' = (handle_req_contract_details db s (parse_req_contract_details fields)).1 := by
      rw [h']
    subst hs
    exact ⟨rfl, rfl⟩
  rw [if_neg h11] at heq
  by_cases h12 : msg_id = IncomingMessageIds.REQ_SEC_DEF_OPT_PARAMS
  · rw [if_pos h12] at heq
    injection heq with h'
    have hs : s' = (handle_req_option_params s (parse_req_sec_def_opt_params fields)).1 := by
      rw [h']
    subst hs
    exact ⟨rfl, rfl⟩
  rw [if_neg h12] at heq
  by_cases h13 : msg_id = IncomingMessageIds.REQ_CURRENT_TIME
  · rw [if_pos h13] at heq
    injection heq with h'
    have hs : s' = (handle_req_current_time clock s).1 := by
      rw [h']
    subst hs
    exact ⟨rfl, rfl⟩
  rw [if_neg h13] at heq
  by_cases h14 : msg_id = IncomingMessageIds.REQ_EXECUTIONS
  · rw [if_pos h14] at heq
    injection heq with h'
    have hs : s' = (handle_req_executions s (parse_req_executions fields)).1 := by
      rw [h']
    subst hs
    exact ⟨rfl, rfl⟩
  rw [if_neg h14] at heq
  by_cases h15 : msg_id = IncomingMessageIds.REQ_HISTORICAL_DATA
  · rw [if_pos h15] at heq
    injection heq with h'
    have hs : s' = (handle_req_historical_data s (parse_req_historical_data fields)).1 := by
      rw [h']
    subst hs
    exact ⟨rfl, rfl⟩
  rw [if_neg h15] at heq
  injection heq with h'
  injection h' with hs _
  subst hs
  exact ⟨rfl, rfl⟩

theorem handle_decoded_rate (cfg : Config) (db : Database) (clock : Clock)
    (srv : Int) (s : Session) (data : List Nat) :
    (handle_decoded cfg db clock srv s data).1.message_count = s.message_count ∧
    (handle_decoded cfg db clock srv s data).1.last_message_time
      = s.last_message_time := by
  unfold handle_decoded
  rcases hd : decode_message data with e | o
  · exact ⟨rfl, rfl⟩
  · rcases o with _ | ⟨mid, fs⟩
    · exact ⟨rfl, rfl⟩
    · dsimp only
      rcases hr : routeMessage cfg db clock srv s mid fs with e | ⟨s', out⟩
      · exact ⟨rfl, rfl⟩
      · dsimp only
        exact routeMessage_rate cfg db clock srv s mid fs s' out hr

/-! ### No handler emits the rate-limit error frame -/

theorem isRateErr_make_message (k : Int) (fs : List EField)
    (hk : k ≠ OutgoingMessageIds.ERR_MSG) :
    isRateErr (make_message k fs) = false := by
  simp [isRateErr, make_message]
  intro hcontra
  exact absurd hcontra hk

theorem isRateErr_error_message (req code : Int) (text : String)
    (hc : code ≠ ErrorCodes.MAX_RATE_EXCEEDED) :
    isRateErr (error_message req code text) = false := by
  simp [isRateErr, error_message, make_message]
  exact hc

theorem send_order_status_no_rate (s : Session) (o : Option Int) (st : String)
    (m : Msg) (h : send_order_status s o st = .ok m) : isRateErr m = false := by
  unfold send_order_status at h
  cases o with
  | none => simp at h
  | some oid =>
    injection h with h'
    subst h'
    exact isRateErr_make_message _ _ (by decide)

theorem send_account_updates_no_rate (db : Database) (clock : Clock)
    (a : String) : ∀ m ∈ send_account_updates db clock a, isRateErr m = false := by
  intro m hm
  unfold send_account_updates at hm
  rcases List.mem_append.mp hm with h1 | h2
  · rcases List.mem_append.mp h1 with h3 | h4
    · rcases hsum : db.get_account_summary a with _ | ad <;> rw [hsum] at h3
      · simp at h3
      · simp at h3
        rcases h3 with rfl | rfl | rfl | rfl | rfl <;>
          exact isRateErr_make_message _ _ (by decide)
    · obtain ⟨p, hp, rfl⟩ := List.mem_map.mp h4
      exact isRateErr_make_message _ _ (by decide)
  · simp at h2
    subst h2
    exact isRateErr_make_message _ _ (by decide)

theorem routeMessage_no_rate (cfg : Config) (db : Database) (clock : Clock)
    (srv : Int) (s : Session) (msg_id : Int) (fields : List String)
    (s' : Session) (out : List Msg)
    (heq : routeMessage cfg db clock srv s msg_id fields = .ok (s', out)) :
    ∀ m ∈ out, isRateErr m = false := by
  unfold routeMessage at heq
  by_cases h1 : msg_id = IncomingMessageIds.START_API
  · rw [if_pos h1] at heq
    injection heq with h'
    have ho : out = (handle_start_api cfg srv s (parse_start_api fields)).2 := by
      rw [h']
    subst ho
    have h2 : (handle_start_api cfg srv s (parse_start_api fields)).2
        = [next_valid_id srv, send_managed_accounts cfg] := by
      cases hd : (parse_start_api fields).client_id <;>
        simp [handle_start_api, send_next_valid_id, hd]
    rw [h2]
    intro m hm
    simp at hm
    rcases hm with rfl | rfl <;> exact isRateErr_make_message _ _ (by decide)
  rw [if_neg h1] at heq
  by_cases h2 : msg_id = IncomingMessageIds.REQ_IDS
  · rw [if_pos h2] at heq
    injection heq with h'
    have ho : out = (handle_req_ids srv s).2 := by rw [h']
    subst ho
    intro m hm
    simp [handle_req_ids, send_next_valid_id] at hm
    subst hm
    exact isRateErr_make_message _ _ (by decide)
  rw [if_neg h2] at heq
  by_cases h3 : msg_id = IncomingMessageIds.REQ_MANAGED_ACCTS
  · rw [if_pos h3] at heq
    injection heq with h'
    injection h' with _ ho
    subst ho
    intro m hm
    simp at hm
    subst hm
    exact isRateErr_make_message _ _ (by decide)
  rw [if_neg h3] at heq
  by_cases h4 : msg_id = IncomingMessageIds.REQ_ACCT_DATA
  · rw [if_pos h4] at heq
    set d := parse_req_acct_data fields with hd
    unfold handle_req_account_data at heq
    by_cases hcode : d.account_code = ""
    · rw [if_pos hcode] at heq
      rcases hfa : firstAccount cfg with e | acct <;> rw [hfa] at heq
      · simp [Bind.bind, Except.bind] at heq
      · simp only [Bind.bind, Except.bind] at heq
        split at heq <;>
        · injection heq with h'
          injection h' with _ ho
          subst ho
          first
            | exact send_account_updates_no_rate db clock acct
            | (intro m hm
               simp at hm
               subst hm
               exact isRateErr_make_message _ _ (by decide))
    · rw [if_neg hcode] at heq
      simp only [Bind.bind, Except.bind] at heq
      split at heq <;>
      · injection heq with h'
        injection h' with _ ho
        subst ho
        first
          | exact send_account_updates_no_rate db clock d.account_code
          | (intro m hm
             simp at hm
             subst hm
             exact isRateErr_make_message _ _ (by decide))
  rw [if_neg h4] at heq
  by_cases h5 : msg_id = IncomingMessageIds.REQ_POSITIONS
  · rw [if_pos h5] at heq
    unfold handle_req_positions at heq
    rcases hfa : firstAccount cfg with e | acct <;> rw [hfa] at heq
    · simp [Bind.bind, Except.bind] at heq
    · simp only [Bind.bind, Except.bind] at heq
      injection heq with h'
      injection h' with _ ho
      subst ho
      intro m hm
      rcases List.mem_append.mp hm with hmap | hend
      · obtain ⟨p, hp, rfl⟩ := List.mem_map.mp hmap
        exact isRateErr_make_message _ _ (by decide)
      · simp at hend
        subst hend
        exact isRateErr_make_message _ _ (by decide)
  rw [if_neg h5] at heq
  by_cases h6 : msg_id = IncomingMessageIds.REQ_MKT_DATA
  · rw [if_pos h6] at heq
    injection heq with h'
    have ho : out = (handle_req_market_data s (parse_req_mkt_data fields)).2 := by
      rw [h']
    subst ho
    intro m hm
    simp [handle_req_market_data, send_initial_market_data, tick_price,
      tick_size] at hm
    rcases hm with rfl | rfl | rfl | rfl | rfl | rfl | rfl <;>
      exact isRateErr_make_message _ _ (by decide)
  rw [if_neg h6] at heq
  by_cases h7 : msg_id = IncomingMessageIds.CANCEL_MKT_DATA
  · rw [if_pos h7] at heq
    injection heq with h'
    have ho : out = (handle_cancel_market_data s (parse_cancel_mkt_data fields)).2 := by
      rw [h']
    subst ho
    have h2 : (handle_cancel_market_data s (parse_cancel_mkt_data fields)).2 = [] := by
      unfold handle_cancel_market_data
      split <;> rfl
    rw [h2]
    intro m hm
    simp at hm
  rw [if_neg h7] at heq
  by_cases h8 : msg_id = IncomingMessageIds.PLACE_ORDER
  · rw [if_pos h8] at heq
    set d := parse_place_order fields with hd
    unfold handle_place_order at heq
    rcases hfa : firstAccount cfg with e | acct <;> rw [hfa] at heq
    · simp [Bind.bind, Except.bind] at heq
    · simp only [Bind.bind, Except.bind] at heq
      rcases ho1 : send_order_status s d.order_id "PendingSubmit" with e1 | m1 <;>
        rw [ho1] at heq
      · simp at heq
      · rcases ho2 : send_order_status s d.order_id "Submitted" with e2 | m2 <;>
          rw [ho2] at heq
        · simp at heq
        · injection heq with h'
          injection h' with _ ho
          subst ho
          intro m hm
          simp at hm
          rcases hm with rfl | rfl
          · exact send_order_status_no_rate s d.order_id "PendingSubmit" _ ho1
          · exact send_order_status_no_rate s d.order_id "Submitted" _ ho2
  rw [if_neg h8] at heq
  by_cases h9 : msg_id = IncomingMessageIds.CANCEL_ORDER
  · rw [if_pos h9] at heq
    set d := parse_cancel_order fields with hd
    unfold handle_cancel_order at heq
    rcases ho1 : send_order_status s d.order_id "PendingCancel" with e1 | m1 <;>
      rw [ho1] at heq <;> simp only [Bind.bind, Except.bind] at heq
    · exact absurd heq (by simp)
    · rcases ho2 : send_order_status s d.order_id "Cancelled" with e2 | m2 <;>
        rw [ho2] at heq
      · simp at heq
      · injection heq with h'
        injection h' with _ ho
        subst ho
        intro m hm
        simp at hm
        rcases hm with rfl | rfl
        · exact send_order_status_no_rate s d.order_id "PendingCancel" _ ho1
        · exact send_order_status_no_rate s d.order_id "Cancelled" _ ho2
  rw [if_neg h9] at heq
  by_cases h10 : msg_id = IncomingMessageIds.REQ_OPEN_ORDERS
  · rw [if_pos h10] at heq
    unfold handle_req_open_orders at heq
    rcases hfa : firstAccount cfg with e | acct <;> rw [hfa] at heq
    · simp [Bind.bind, Except.bind] at heq
    · simp only [Bind.bind, Except.bind] at heq
      injection heq with h'
      injection h' with _ ho
      subst ho
      intro m hm
      simp at hm
      subst hm
      exact isRateErr_make_message _ _ (by decide)
  rw [if_neg h10] at heq
  by_cases h11 : msg_id = IncomingMessageIds.REQ_CONTRACT_DATA
  · rw [if_pos h11] at heq
    injection heq with h'
    have ho : out
        = (handle_req_contract_details db s (parse_req_contract_details fields)).2 := by
      rw [h']
    subst ho
    intro m hm
    unfold handle_req_contract_details at hm
    rcases List.mem_append.mp hm with hfound | hend
    · split at hfound
      · split at hfound
        · simp at hfound
          subst hfound
          exact isRateErr_make_message _ _ (by decide)
        · simp at hfound
      · simp at hfound
    · simp at hend
      subst hend
      exact isRateErr_make_message _ _ (by decide)
  rw [if_neg h11] at heq
  by_cases h12 : msg_id = IncomingMessageIds.REQ_SEC_DEF_OPT_PARAMS
  · rw [if_pos h12] at heq
    injection heq with h'
    have ho : out = (handle_req_option_params s (parse_req_sec_def_opt_params fields)).2 := by
      rw [h']
    subst ho
    intro m hm
    simp [handle_req_option_params] at hm
    subst hm
    exact isRateErr_make_message _ _ (by decide)
  rw [if_neg h12] at heq
  by_cases h13 : msg_id = IncomingMessageIds.REQ_CURRENT_TIME
  · rw [if_pos h13] at heq
    injection heq with h'
    have ho : out = (handle_req_current_time clock s).2 := by rw [h']
    subst ho
    intro m hm
    simp [handle_req_current_time] at hm
    subst hm
    exact isRateErr_make_message _ _ (by decide)
  rw [if_neg h13] at heq
  by_cases h14 : msg_id = IncomingMessageIds.REQ_EXECUTIONS
  · rw [if_pos h14] at heq
    injection heq with h'
    have ho : out = (handle_req_executions s (parse_req_executions fields)).2 := by
      rw [h']
    subst ho
    intro m hm
    simp [handle_req_executions] at hm
    subst hm
    exact isRateErr_make_message _ _ (by decide)
  rw [if_neg h14] at heq
  by_cases h15 : msg_id = IncomingMessageIds.REQ_HISTORICAL_DATA
  · rw [if_pos h15] at heq
    injection heq with h'
    have ho : out = (handle_req_historical_data s (parse_req_historical_data fields)).2 := by
      rw [h']
    subst ho
    intro m hm
    simp [handle_req_historical_data] at hm
    subst hm
    exact isRateErr_make_message _ _ (by decide)
  rw [if_neg h15] at heq
  injection heq with h'
  injection h' with _ ho
  subst ho
  intro m hm
  simp at hm
  subst hm
  exact isRateErr_error_message _ _ _ (by decide)

theorem handle_decoded_no_rate (cfg : Config) (db : Database) (clock : Clock)
    (srv : Int) (s : Session) (data : List Nat) :
    ∀ m ∈ (handle_decoded cfg db clock srv s data).2, isRateErr m = false := by
  unfold handle_decoded
  rcases hd : decode_message data with e | o
  · intro m hm
    simp at hm
    subst hm
    exact isRateErr_error_message _ _ _ (by decide)
  · rcases o with _ | ⟨mid, fs⟩
    · intro m hm
      simp at hm
    · dsimp only
      rcases hr : routeMessage cfg db clock srv s mid fs with e | ⟨s', out⟩
      · intro m hm
        simp at hm
        subst hm
        exact isRateErr_error_message _ _ _ (by decide)
      · dsimp only
        exact routeMessage_no_rate cfg db clock srv s mid fs s' out hr

/-! ### C3: rate limiter -/

theorem dispatch_all_cons (cfg : Config) (db : Database) (clock : Clock)
    (srv : Int) (s : Session) (t : ℚ) (d : List Nat)
    (rest : List (ℚ × List Nat)) :
    dispatch_all cfg db clock srv s ((t, d) :: rest)
      = ((dispatch_all cfg db clock srv
            (handle_decoded cfg db clock srv (check_rate_limit cfg s t).1 d).1
            rest).1,
        (handle_decoded cfg db clock srv (check_rate_limit cfg s t).1 d).2
          ++ (dispatch_all cfg db clock srv
            (handle_decoded cfg db clock srv (check_rate_limit cfg s t).1 d).1
            rest).2) := by
  conv_lhs => rw [dispatch_all]

/-- C3.  Rate limiter (`ClientHandler._check_rate_limit` /
`_process_message`, window 1.0 s, limit `M = message_rate_limit`):
(a) a burst that stays within the window and brings the counter to at most
`M` is dispatched in full — the ingress run coincides with the
limiter-ignoring reference run — and emits no `MAX_RATE_EXCEEDED` frame;
(b) with the counter already at `M`, one more in-window frame produces
exactly one `ERR_MSG(-1, MAX_RATE_EXCEEDED)` and is not dispatched to any
handler (only the counter bookkeeping changes);
(c) once more than 1.0 s has passed since the window start, the counter
resets to 0 and the window restarts at the current time. -/
theorem C3_rate_limiter (cfg : Config) (db : Database) (clock : Clock)
    (srv : Int) :
    (∀ (s : Session) (frames : List (ℚ × List Nat)),
        s.message_count + frames.length ≤ cfg.message_rate_limit →
        (∀ p ∈ frames, p.1 - s.last_message_time ≤ 1) →
        process_all cfg db clock srv s frames
          = dispatch_all cfg db clock srv s frames ∧
        ∀ m ∈ (process_all cfg db clock srv s frames).2, isRateErr m = false) ∧
    (∀ (s : Session) (now : ℚ) (data : List Nat),
        s.message_count = cfg.message_rate_limit →
        now - s.last_message_time ≤ 1 →
        process_message cfg db clock srv s now data
          = ({ s with message_count := cfg.message_rate_limit + 1 },
            [error_message (-1) ErrorCodes.MAX_RATE_EXCEEDED
              "Max message rate exceeded"])) ∧
    (∀ (s : Session) (now : ℚ),
        now - s.last_message_time > 1 →
        rate_reset s now
          = { s with message_count := 0, last_message_time := now }) := by
  refine ⟨?_, ?_, ?_⟩
  · intro s frames
    induction frames generalizing s with
    | nil =>
      intro _ _
      refine ⟨rfl, ?_⟩
      intro m hm
      simp [process_all] at hm
    | cons p rest ih =>
      rcases p with ⟨t, d⟩
      intro hcount hwin
      simp only [List.length_cons] at hcount
      have hle : t - s.last_message_time ≤ 1 := hwin (t, d) (List.mem_cons_self _ _)
      have hnr : rate_reset s t = s := by
        unfold rate_reset
        rw [if_neg (not_lt.mpr hle)]
      have hok : s.message_count + 1 ≤ cfg.message_rate_limit := by omega
      have hck : check_rate_limit cfg s t
          = ({ s with message_count := s.message_count + 1 }, true) := by
        unfold check_rate_limit
        rw [hnr]
        exact congrArg
          (fun b => (({ s with message_count := s.message_count + 1 } : Session), b))
          (decide_eq_true hok)
      have hpm : process_message cfg db clock srv s t d
          = handle_decoded cfg db clock srv
              { s with message_count := s.message_count + 1 } d := by
        rw [process_message_eq, hck]
        rfl
      obtain ⟨hmc, hmt⟩ := handle_decoded_rate cfg db clock srv
        { s with message_count := s.message_count + 1 } d
      have hmc' : (handle_decoded cfg db clock srv
          { s with message_count := s.message_count + 1 } d).1.message_count
            = s.message_count + 1 := hmc
      have hmt' : (handle_decoded cfg db clock srv
          { s with message_count := s.message_count + 1 } d).1.last_message_time
            = s.last_message_time := hmt
      have hih := ih (handle_decoded cfg db clock srv
          { s with message_count := s.message_count + 1 } d).1
        (by rw [hmc']; omega)
        (by
          intro q hq
          rw [hmt']
          exact hwin q (List.mem_cons_of_mem _ hq))
      refine ⟨?_, ?_⟩
      · rw [process_all_cons, dispatch_all_cons, hpm, hck]
        rw [hih.1]
      · intro m hm
        rw [process_all_cons, hpm] at hm
        rcases List.mem_append.mp hm with h | h
        · exact handle_decoded_no_rate cfg db clock srv
            { s with message_count := s.message_count + 1 } d m h
        · exact hih.2 m h
  · intro s now data hcnt hle
    have hnr : rate_reset s now = s := by
      unfold rate_reset
      rw [if_neg (not_lt.mpr hle)]
    have hck : check_rate_limit cfg s now
        = ({ s with message_count := cfg.message_rate_limit + 1 }, false) := by
      unfold check_rate_limit
      rw [hnr]
      dsimp only
      rw [hcnt]
      exact congrArg
        (fun b =>
          (({ s with message_count := cfg.message_rate_limit + 1 } : Session), b))
        (decide_eq_false (by omega))
    rw [process_message_eq, hck]
    rfl
  · intro s now h
    unfold rate_reset
    rw [if_pos h]

/-- C3 instantiated: a 2-frame in-window burst on a fresh 50-limit session
is fully dispatched with no rate error; the 51st in-window frame gets the
single `MAX_RATE_EXCEEDED` reply; a 2-second gap resets the window. -/
theorem C3_rate_limiter_witness :
    (process_all cfgW dbW clockW 1001 sW [((0 : ℚ), []), ((1 : ℚ), [])]
        = dispatch_all cfgW dbW clockW 1001 sW [((0 : ℚ), []), ((1 : ℚ), [])] ∧
      ∀ m ∈ (process_all cfgW dbW clockW 1001 sW
          [((0 : ℚ), []), ((1 : ℚ), [])]).2, isRateErr m = false) ∧
    process_message cfgW dbW clockW 1001 { sW with message_count := 50 } 1 []
      = ({ { sW with message_count := 50 } with
            message_count := cfgW.message_rate_limit + 1 },
        [error_message (-1) ErrorCodes.MAX_RATE_EXCEEDED
          "Max message rate exceeded"]) ∧
    rate_reset sW 2 = { sW with message_count := 0, last_message_time := 2 } := by
  obtain ⟨hA, hB, hC⟩ := C3_rate_limiter cfgW dbW clockW 1001
  refine ⟨hA sW [((0 : ℚ), []), ((1 : ℚ), [])] (by decide) ?_,
    hB { sW with message_count := 50 } 1 [] (by rfl) (by norm_num [sW, mkSession]),
    hC sW 2 (by norm_num [sW, mkSession])⟩
  intro p hp
  simp at hp
  rcases hp with rfl | rfl <;> norm_num [sW, mkSession]

/-! ### C7: missing required fields -/

/-- C7 counterexample: `CANCEL_MKT_DATA` requires a `req_id` field, yet a
frame of that kind with an empty field vector is decoded and dispatched
without any `ERR_MSG(SERVER_ERROR)` — the read of the missing field yields
`None`, the handler no-ops, and no frame at all is emitted. -/
theorem C7_counterexample :
    handle_decoded cfgW dbW clockW 1001 sW [0, 0, 0, 2, 50, 0] = (sW, []) := by
  rfl

/-- C7 (amended).  Reads of absent fields do not raise: they return the
absent defaults (`None`/`""`/`False`) and leave the cursor in place, so
parsers succeed silently on short field vectors.  A `CANCEL_MKT_DATA` frame
with no fields is handled with no output at all; an `ERR_MSG(SERVER_ERROR)`
surfaces only when a handler actually uses a missing value unguarded, as
`PLACE_ORDER` does when its missing `order_id` reaches `order_id + 1000` in
`_send_order_status`.  Trailing extra fields beyond the required ones are
ignored without error. -/
theorem C7_missing_fields (cfg : Config) (db : Database) (clock : Clock)
    (srv : Int) (s : Session) (a : String) (rest : List String)
    (hacc : cfg.accounts = a :: rest) :
    (∀ (fields : List String) (i : Nat), fields.length ≤ i →
        read_int fields i = (none, i) ∧ read_float fields i = (none, i) ∧
        read_str fields i = ("", i) ∧ read_bool fields i = (false, i)) ∧
    (∃ s', routeMessage cfg db clock srv s IncomingMessageIds.CANCEL_MKT_DATA []
        = .ok (s', [])) ∧
    handle_decoded cfg db clock srv s [0, 0, 0, 2, 51, 0]
      = (s, [error_message (-1) ErrorCodes.SERVER_ERROR
          "TypeError: unsupported operand types for addition: NoneType and int"]) ∧
    (∀ (f : String) (extras : List String),
        parse_cancel_mkt_data (f :: extras) = parse_cancel_mkt_data [f]) ∧
    (∀ (f1 f2 : String) (extras : List String),
        parse_req_acct_data (f1 :: f2 :: extras) = parse_req_acct_data [f1, f2]) := by
  refine ⟨?_, ?_, ?_, ?_, ?_⟩
  · intro fields i hlen
    have hnone : fields[i]? = none := List.getElem?_eq_none hlen
    exact ⟨by simp [read_int, hnone], by simp [read_float, hnone],
      by simp [read_str, hnone], by simp [read_bool, hnone]⟩
  · refine ⟨(handle_cancel_market_data s (parse_cancel_mkt_data [])).1, ?_⟩
    have h2 : handle_cancel_market_data s (parse_cancel_mkt_data [])
        = ((handle_cancel_market_data s (parse_cancel_mkt_data [])).1, []) := by
      unfold handle_cancel_market_data
      split
      · rfl
      · rfl
    calc routeMessage cfg db clock srv s IncomingMessageIds.CANCEL_MKT_DATA []
        = .ok (handle_cancel_market_data s (parse_cancel_mkt_data [])) := rfl
      _ = .ok ((handle_cancel_market_data s (parse_cancel_mkt_data [])).1, []) := by
          rw [h2]
  · have hdec : decode_message [0, 0, 0, 2, 51, 0] = .ok (some (3, [])) := by
      rfl
    have hfa : firstAccount cfg = .ok a := by
      unfold firstAccount
      rw [hacc]
    have hpl : handle_place_order cfg s (parse_place_order [])
        = .error
          "TypeError: unsupported operand types for addition: NoneType and int" := by
      unfold handle_place_order
      rw [hfa]
      rfl
    have hro : routeMessage cfg db clock srv s 3 []
        = handle_place_order cfg s (parse_place_order []) := rfl
    unfold handle_decoded
    rw [hdec]
    dsimp only
    rw [hro, hpl]
  · intro f extras
    simp [parse_cancel_mkt_data, read_int]
  · intro f1 f2 extras
    simp [parse_req_acct_data, read_bool, read_str]

/-- C7 (amended) instantiated: concrete absent-field reads, the no-output
fieldless `CANCEL_MKT_DATA` dispatch, the `PLACE_ORDER`-without-order-id
frame surfacing `SERVER_ERROR`, and trailing-extras invariance. -/
theorem C7_missing_fields_witness :
    cfgW.accounts = "DU000001" :: [] ∧
    read_int [] 5 = (none, 5) ∧
    (∃ s', routeMessage cfgW dbW clockW 1001 sW IncomingMessageIds.CANCEL_MKT_DATA []
        = .ok (s', [])) ∧
    handle_decoded cfgW dbW clockW 1001 sW [0, 0, 0, 2, 51, 0]
      = (sW, [error_message (-1) ErrorCodes.SERVER_ERROR
          "TypeError: unsupported operand types for addition: NoneType and int"]) ∧
    parse_cancel_mkt_data ["7", "junk"] = parse_cancel_mkt_data ["7"] := by
  have h := C7_missing_fields cfgW dbW clockW 1001 sW "DU000001" [] (by rfl)
  exact ⟨rfl, (h.1 [] 5 (by decide)).1, h.2.1, h.2.2.1, h.2.2.2.1 "7" ["junk"]⟩

end IBSim
